import Mathlib

/-!
# ImageToVideoFilter: region derivation, request resolution and frame extraction

A shallow embedding of `Modules/Video/Core/include/itkImageToVideoFilter.hxx`.

* `itk::IndexValueType` is a signed 64-bit integer, modelled as `Int`;
  `itk::SizeValueType` is an unsigned 64-bit integer, modelled as `Nat`.
  The implicit conversions between the two that the source performs are the
  explicit functions `toSizeValue` and `toIndexValue`.
* An `ImageRegion` of dimension `N` is a pair of lists of length `N`.
  An access outside a fixed array, and the dereference of a null input, have
  no defined result in C++; they are modelled as a `Failure`.
* The template parameter `TInputImage::ImageDimension` is the explicit argument
  `N` of the member functions; the frames have the default dimension `N - 1`.
-/

namespace itk

/-! ## Integer types -/

/-- Number of values of `itk::SizeValueType`. The type is declared in
`itkIntTypes.h`, not among the files at hand, as `unsigned long`: 64 bits. -/
def SizeValueModulus : Nat := 2 ^ 64

/-- Implicit conversion of an `IndexValueType` to an unsigned parameter, as in
`SetFrameStart(inputRegion.GetIndex(m_FrameAxis))` and `GetIndex(m_FrameAxis)`:
the value modulo `2^64`. -/
def toSizeValue (v : Int) : Nat := (v % (SizeValueModulus : Int)).toNat

/-- Implicit conversion of a `SizeValueType` to an `IndexValueType`, as in
`inputSliceRegion.SetIndex(m_FrameAxis, idx)`: the values from `2^63` on become
negative. -/
def toIndexValue (v : Nat) : Int :=
  if v % SizeValueModulus < 2 ^ 63 then ((v % SizeValueModulus : Nat) : Int)
  else ((v % SizeValueModulus : Nat) : Int) - (SizeValueModulus : Int)

/-- What a member function can end in other than a result. -/
inductive Failure where
  /-- an access outside a fixed array (undefined behaviour in C++) -/
  | outOfBoundsAccess
  /-- a dereference of a null pointer (undefined behaviour in C++) -/
  | nullDereference
  /-- the exception of the projection step -/
  | regionOutOfBounds
  /-- the error for a frame axis outside the dimensions of the input, as the
  error taxonomy of the specification names it; no statement of the filter
  raises it -/
  | invalidAxis
  /-- the error for a missing input, as the error taxonomy of the specification
  names it; no statement of the filter raises it -/
  | invalidInput
deriving DecidableEq, Repr

/-! ## Regions -/

/-- Modelled from the spec: the region type (`itk::ImageRegion`, not among the
files at hand), "an N-tuple of (start, extent) pairs over integer index space":
the members `m_Index` and `m_Size`. -/
structure ImageRegion where
  index : List Int
  size : List Nat
deriving DecidableEq, Repr

namespace ImageRegion

/-- Modelled from the spec: the default-constructed region of dimension `dim`,
index and size all zero. -/
def zero (dim : Nat) : ImageRegion := ⟨List.replicate dim 0, List.replicate dim 0⟩

/-- A region of dimension `N` whose components are representable. -/
def WF (N : Nat) (R : ImageRegion) : Prop :=
  R.index.length = N ∧ R.size.length = N ∧
  (∀ v ∈ R.index, -(2 ^ 63 : Int) ≤ v ∧ v < 2 ^ 63) ∧ (∀ v ∈ R.size, v < 2 ^ 64)

instance (N : Nat) (R : ImageRegion) : Decidable (WF N R) := by
  unfold WF; infer_instance

/-- Modelled from the spec: the member `GetIndex(i)`, which returns `m_Index[i]`
without a check of `i`. -/
def GetIndex (R : ImageRegion) (i : Nat) : Except Failure Int :=
  match R.index[i]? with
  | some v => .ok v
  | none => .error .outOfBoundsAccess

/-- Modelled from the spec: the member `GetSize(i)`, which returns `m_Size[i]`
without a check of `i`. -/
def GetSize (R : ImageRegion) (i : Nat) : Except Failure Nat :=
  match R.size[i]? with
  | some v => .ok v
  | none => .error .outOfBoundsAccess

/-- Modelled from the spec: the member `SetIndex(i, v)`, the assignment
`m_Index[i] = v` without a check of `i`. -/
def SetIndex (R : ImageRegion) (i : Nat) (v : Int) : Except Failure ImageRegion :=
  if i < R.index.length then .ok { R with index := R.index.set i v }
  else .error .outOfBoundsAccess

/-- Modelled from the spec: the member `SetSize(i, v)`, the assignment
`m_Size[i] = v` without a check of `i`. -/
def SetSize (R : ImageRegion) (i : Nat) (v : Nat) : Except Failure ImageRegion :=
  if i < R.size.length then .ok { R with size := R.size.set i v }
  else .error .outOfBoundsAccess

/-- The region with axis `a` removed, the other axes in their order. -/
def dropAxis (R : ImageRegion) (a : Nat) : ImageRegion :=
  ⟨R.index.eraseIdx a, R.size.eraseIdx a⟩

end ImageRegion

/-- Modelled from the spec: the temporal region (`itk::TemporalRegion`, not
among the files at hand), "a pair (frame-start, frame-duration) describing a
contiguous span of frame indices", both of type `SizeValueType`. The real start
and duration are not set by the filter. -/
structure TemporalRegion where
  frameStart : Nat
  frameDuration : Nat
deriving DecidableEq, Repr

/-! ## Images and video streams -/

/-- Modelled from the spec: an image (`itk::Image`, not among the files at
hand) with pixel type `P`: its largest possible and requested regions and its
pixels by index. -/
structure Image (P : Type) where
  largestPossibleRegion : ImageRegion
  requestedRegion : ImageRegion
  pixel : List Int → P

/-- Modelled from the spec: the output stream (`itk::VideoStream`, not among the
files at hand), the container that "stores per-frame data and answers region
queries": a largest-possible and a requested temporal region, a
"requested/largest-possible spatial region attached to each frame index", and
the frames, where `none` is a frame that holds no pixel data. -/
structure VideoStream (P : Type) where
  largestPossibleTemporalRegion : TemporalRegion
  requestedTemporalRegion : TemporalRegion
  largestPossibleSpatialRegion : Nat → ImageRegion
  requestedSpatialRegion : Nat → ImageRegion
  frame : Nat → Option (Image P)

namespace VideoStream

variable {P : Type}

/-- Modelled from the spec: the accessor of the largest possible temporal region. -/
def GetLargestPossibleTemporalRegion (v : VideoStream P) : TemporalRegion :=
  v.largestPossibleTemporalRegion

/-- Modelled from the spec: the accessor of the requested temporal region. -/
def GetRequestedTemporalRegion (v : VideoStream P) : TemporalRegion :=
  v.requestedTemporalRegion

/-- Modelled from the spec: the setter of the largest possible temporal region. -/
def SetLargestPossibleTemporalRegion (v : VideoStream P) (t : TemporalRegion) : VideoStream P :=
  { v with largestPossibleTemporalRegion := t }

/-- Modelled from the spec: the setter of the requested temporal region. -/
def SetRequestedTemporalRegion (v : VideoStream P) (t : TemporalRegion) : VideoStream P :=
  { v with requestedTemporalRegion := t }

/-- Modelled from the spec: publishes the region "as the largest-possible
spatial region shared by every frame". -/
def SetAllLargestPossibleSpatialRegions (v : VideoStream P) (r : ImageRegion) : VideoStream P :=
  { v with largestPossibleSpatialRegion := fun _ => r }

/-- Modelled from the spec: "sets the stream's requested region to equal its
largest-possible region"; the region of a temporal data object is its
temporal region. -/
def SetRequestedRegionToLargestPossibleRegion (v : VideoStream P) : VideoStream P :=
  v.SetRequestedTemporalRegion v.GetLargestPossibleTemporalRegion

/-- Modelled from the spec: the requested spatial region attached to the frame
index `i`. -/
def GetFrameRequestedSpatialRegion (v : VideoStream P) (i : Nat) : ImageRegion :=
  v.requestedSpatialRegion i

/-- Modelled from the spec: the largest possible spatial region attached to the
frame index `i`. -/
def GetFrameLargestPossibleSpatialRegion (v : VideoStream P) (i : Nat) : ImageRegion :=
  v.largestPossibleSpatialRegion i

/-- Modelled from the spec: the setter of the requested spatial region attached
to the frame index `i`; the regions of the other frames stay. -/
def SetFrameRequestedSpatialRegion (v : VideoStream P) (i : Nat) (r : ImageRegion) :
    VideoStream P :=
  { v with requestedSpatialRegion := fun k => if k = i then r else v.requestedSpatialRegion k }

/-- Modelled from the spec: the statement `GetFrame(i)->Graft(image)`, a
"transfer of a data buffer's ownership into a destination object": the frame
`i` takes over the regions and the pixel data of `image`; the other frames
stay. -/
def GraftFrame (v : VideoStream P) (i : Nat) (image : Image P) : VideoStream P :=
  { v with frame := fun k => if k = i then some image else v.frame k }

end VideoStream

/-! ## The projection step -/

/-- The position of dimension `N` obtained from the frame position `p` by
inserting the coordinate `v` at axis `a`. -/
def insertAxis (p : List Int) (a : Nat) (v : Int) : List Int :=
  p.take a ++ v :: p.drop a

/-- Whether the slice `S`, collapsed on axis `a`, lies inside the region `L`:
on axis `a` the index of `S` is one of the indices of `L`, on every other axis
the extent of `S` is within the extent of `L`. -/
def sliceInside (L S : ImageRegion) (a : Nat) : Bool :=
  (List.range L.index.length).all fun j =>
    if j = a then
      decide (L.index.getD j 0 ≤ S.index.getD j 0 ∧
        S.index.getD j 0 < L.index.getD j 0 + (L.size.getD j 0 : Int))
    else
      decide (L.index.getD j 0 ≤ S.index.getD j 0 ∧
        S.index.getD j 0 + (S.size.getD j 0 : Int) ≤ L.index.getD j 0 + (L.size.getD j 0 : Int))

/-- Modelled from the spec: the projection step (`itk::ExtractImageFilter` with
`SetDirectionCollapseToSubmatrix`, not among the files at hand). "Project the
input at that slice region down to an (N-1)-dimensional image, collapsing the
singleton axis"; "each output voxel equals exactly the corresponding input
voxel"; "if the slice region falls outside the input's actual available data,
the projection step fails with `RegionOutOfBoundsError`". The collapsed axis is
the argument `a`. -/
def ExtractImageFilter {P : Type} (a : Nat) (input : Image P) (extractionRegion : ImageRegion) :
    Except Failure (Image P) :=
  if sliceInside input.largestPossibleRegion extractionRegion a then
    .ok { largestPossibleRegion := extractionRegion.dropAxis a
          requestedRegion := extractionRegion.dropAxis a
          pixel := fun p => input.pixel (insertAxis p a (extractionRegion.index.getD a 0)) }
  else .error .regionOutOfBounds

/-! ## The filter -/

/-- The filter object: its input (`none` when no input is connected), the
member `m_FrameAxis` and its output stream. -/
structure ImageToVideoFilter (P : Type) where
  input : Option (Image P)
  m_FrameAxis : Int
  output : VideoStream P

namespace ImageToVideoFilter

variable {P : Type}

/-- The member `GetInput()`: the input image, or the null pointer. -/
def GetInput (F : ImageToVideoFilter P) : Option (Image P) := F.input

/-- The member `SetFrameAxis` (`itkSetMacro`): stores the value. -/
def SetFrameAxis (F : ImageToVideoFilter P) (a : Int) : ImageToVideoFilter P :=
  { F with m_FrameAxis := a }

/-- State of the axis loop of `GenerateOutputInformation`: the region being
filled, the counter `outputIdx`, and the frame axes written so far. -/
structure AxisLoopState where
  outputSpatialRegion : ImageRegion
  outputIdx : Nat
  written : List Nat
deriving DecidableEq, Repr

/-- Body of the loop `for (idx = 0; idx < ImageDimension; idx++)`. -/
def axisLoopBody (inputRegion : ImageRegion) (m_FrameAxis : Int) (st : AxisLoopState)
    (idx : Nat) : Except Failure AxisLoopState :=
  if (idx : Int) ≠ m_FrameAxis then do
    let axisSize ← inputRegion.GetSize idx
    let axisStart ← inputRegion.GetIndex idx
    let r1 ← st.outputSpatialRegion.SetSize st.outputIdx axisSize
    let r2 ← r1.SetIndex st.outputIdx axisStart
    pure ⟨r2, st.outputIdx + 1, st.written ++ [st.outputIdx]⟩
  else pure st

/-- The axis loop of `GenerateOutputInformation`, from the default-constructed
region of dimension `N - 1` and `outputIdx = 0`. -/
def axisLoop (N : Nat) (inputRegion : ImageRegion) (m_FrameAxis : Int) :
    Except Failure AxisLoopState :=
  (List.range N).foldlM (axisLoopBody inputRegion m_FrameAxis) ⟨ImageRegion.zero (N - 1), 0, []⟩

/-- The member `GenerateOutputInformation`. -/
def GenerateOutputInformation (N : Nat) (F : ImageToVideoFilter P) :
    Except Failure (ImageToVideoFilter P) :=
  match F.GetInput with
  | none => .error .nullDereference
  | some input => do
    let inputRegion := input.largestPossibleRegion
    let start ← inputRegion.GetIndex (toSizeValue F.m_FrameAxis)
    let duration ← inputRegion.GetSize (toSizeValue F.m_FrameAxis)
    let outputTemporalRegion : TemporalRegion := ⟨toSizeValue start, duration⟩
    let out1 := F.output.SetLargestPossibleTemporalRegion outputTemporalRegion
    let st ← axisLoop N inputRegion F.m_FrameAxis
    let out2 := out1.SetAllLargestPossibleSpatialRegions st.outputSpatialRegion
    pure { F with output := out2.SetRequestedRegionToLargestPossibleRegion }

/-- The test `validRegion` of `GenerateOutputRequestedRegion`: some axis
`j < dim` of the region has a non-zero size. -/
def validRegion (dim : Nat) (spatialRegion : ImageRegion) : Bool :=
  (List.range dim).any fun j => decide (spatialRegion.size.getD j 0 ≠ 0)

/-- Result of `GenerateOutputRequestedRegion`: the filter, and the frame
indices the loop went through, in order. -/
structure RequestedRegionPass (P : Type) where
  filter : ImageToVideoFilter P
  inspected : List Nat

/-- Body of the frame loop of `GenerateOutputRequestedRegion` for the frame `i`:
a requested spatial region that fails the test `validRegion` is set to the
largest possible spatial region of the frame. -/
def resolveFrame (dim : Nat) (i : Nat) (out : VideoStream P) : VideoStream P :=
  let spatialRegion := out.GetFrameRequestedSpatialRegion i
  if !validRegion dim spatialRegion then
    out.SetFrameRequestedSpatialRegion i (out.GetFrameLargestPossibleSpatialRegion i)
  else out

/-- The loop `for (SizeValueType i = outFrameStart; i < bound; ++i)` of
`GenerateOutputRequestedRegion`, where `bound` is the value of
`outFrameStart + outFrameDuration`. The first argument bounds the number of
iterations. -/
def requestedRegionLoop (dim bound : Nat) :
    Nat → Nat → RequestedRegionPass P → RequestedRegionPass P
  | 0, _, st => st
  | fuel + 1, i, st =>
    if i < bound then
      requestedRegionLoop dim bound fuel ((i + 1) % SizeValueModulus)
        ⟨{ st.filter with output := resolveFrame dim i st.filter.output }, st.inspected ++ [i]⟩
    else st

/-- The member `GenerateOutputRequestedRegion`. -/
def GenerateOutputRequestedRegion (N : Nat) (F : ImageToVideoFilter P) : RequestedRegionPass P :=
  let out0 := F.output.SetRequestedTemporalRegion F.output.GetLargestPossibleTemporalRegion
  let outFrameStart := out0.GetRequestedTemporalRegion.frameStart
  let outFrameDuration := out0.GetRequestedTemporalRegion.frameDuration
  requestedRegionLoop (N - 1) ((outFrameStart + outFrameDuration) % SizeValueModulus)
    SizeValueModulus outFrameStart ⟨{ F with output := out0 }, []⟩

/-- The member `GenerateInputRequestedRegion`. -/
def GenerateInputRequestedRegion (F : ImageToVideoFilter P) :
    Except Failure (ImageToVideoFilter P) :=
  match F.GetInput with
  | none => .error .nullDereference
  | some input =>
    .ok { F with input := some { input with requestedRegion := input.largestPossibleRegion } }

/-- Result of `GenerateData`: the filter, the frame indices grafted, in order,
and the failure that ended the pass, if any. -/
structure DataPass (P : Type) where
  filter : ImageToVideoFilter P
  written : List Nat
  failure : Option Failure

/-- The slice region of `GenerateData` for the frame `idx`: the input region
with size `0` and index `idx` on the frame axis. -/
def inputSliceRegion (inputRegion : ImageRegion) (m_FrameAxis : Int) (idx : Nat) :
    Except Failure ImageRegion := do
  let r ← inputRegion.SetSize (toSizeValue m_FrameAxis) 0
  r.SetIndex (toSizeValue m_FrameAxis) (toIndexValue idx)

/-- Body of the frame loop of `GenerateData` up to the graft: the slice region
of the frame `idx` is handed to the projection step `extract`. -/
def extractFrame (extract : Image P → ImageRegion → Except Failure (Image P))
    (input : Image P) (inputRegion : ImageRegion) (m_FrameAxis : Int) (idx : Nat) :
    Except Failure (Image P) := do
  let slice ← inputSliceRegion inputRegion m_FrameAxis idx
  extract input slice

/-- One iteration of the frame loop of `GenerateData` that reaches the graft. -/
def graftStep (st : DataPass P) (idx : Nat) (image : Image P) : DataPass P :=
  { st with
    filter := { st.filter with output := st.filter.output.GraftFrame idx image }
    written := st.written ++ [idx] }

/-- The loop `for (auto idx = outputStartFrame; idx < bound; idx++)` of
`GenerateData`, where `bound` is the value of `outputStartFrame + outputDuration`
and `extract` is the projection step. A failure of the body ends the pass. The
first argument bounds the number of iterations. -/
def dataLoop (extract : Image P → ImageRegion → Except Failure (Image P))
    (input : Image P) (inputRegion : ImageRegion) (m_FrameAxis : Int) (bound : Nat) :
    Nat → Nat → DataPass P → DataPass P
  | 0, _, st => st
  | fuel + 1, idx, st =>
    if idx < bound then
      match extractFrame extract input inputRegion m_FrameAxis idx with
      | .error e => { st with failure := some e }
      | .ok image =>
        dataLoop extract input inputRegion m_FrameAxis bound fuel ((idx + 1) % SizeValueModulus)
          (graftStep st idx image)
    else st

/-- The member `GenerateData`, over the projection step `extract`. The call
`AllocateOutputs()` of the superclass puts no pixel data into a frame. -/
def GenerateData (extract : Image P → ImageRegion → Except Failure (Image P))
    (F : ImageToVideoFilter P) : DataPass P :=
  match F.GetInput with
  | none => ⟨F, [], some .nullDereference⟩
  | some input =>
    let inputRegion := input.largestPossibleRegion
    let outputStartFrame := F.output.GetRequestedTemporalRegion.frameStart
    let outputDuration := F.output.GetRequestedTemporalRegion.frameDuration
    dataLoop extract input inputRegion F.m_FrameAxis
      ((outputStartFrame + outputDuration) % SizeValueModulus)
      SizeValueModulus outputStartFrame ⟨F, [], none⟩

/-- The frame loop of `GenerateData` run over an explicit list of frame
indices. -/
def dataRun (extract : Image P → ImageRegion → Except Failure (Image P))
    (input : Image P) (inputRegion : ImageRegion) (m_FrameAxis : Int) :
    List Nat → DataPass P → DataPass P
  | [], st => st
  | idx :: rest, st =>
    match extractFrame extract input inputRegion m_FrameAxis idx with
    | .error e => { st with failure := some e }
    | .ok image => dataRun extract input inputRegion m_FrameAxis rest (graftStep st idx image)

/-- Whether the body of the frame loop of `GenerateData` reaches the graft for
the frame `idx`. -/
def frameOk (extract : Image P → ImageRegion → Except Failure (Image P))
    (input : Image P) (inputRegion : ImageRegion) (m_FrameAxis : Int) (idx : Nat) : Bool :=
  match extractFrame extract input inputRegion m_FrameAxis idx with
  | .error _ => false
  | .ok _ => true

/-- Whether the frame index `k`, read as an index value, is one of the indices
of the region `R` on axis `a`. -/
def inExtent (R : ImageRegion) (a : Nat) (k : Nat) : Prop :=
  R.index.getD a 0 ≤ toIndexValue k ∧ toIndexValue k < R.index.getD a 0 + (R.size.getD a 0 : Int)

instance (R : ImageRegion) (a k : Nat) : Decidable (inExtent R a k) := by
  unfold inExtent; infer_instance

/-- The frame indices at which the frame loop of `GenerateData` enters its
body, in order: the loop `dataLoop` with the indices recorded. An index at
which the body fails is the last one. -/
def dataLoopVisited (extract : Image P → ImageRegion → Except Failure (Image P))
    (input : Image P) (inputRegion : ImageRegion) (m_FrameAxis : Int) (bound : Nat) :
    Nat → Nat → List Nat
  | 0, _ => []
  | fuel + 1, idx =>
    if idx < bound then
      match extractFrame extract input inputRegion m_FrameAxis idx with
      | .error _ => [idx]
      | .ok _ =>
        idx :: dataLoopVisited extract input inputRegion m_FrameAxis bound fuel
          ((idx + 1) % SizeValueModulus)
    else []

/-- The frame indices at which `GenerateData` enters the body of its frame
loop, in order. -/
def visitedFrames (extract : Image P → ImageRegion → Except Failure (Image P))
    (F : ImageToVideoFilter P) : List Nat :=
  match F.GetInput with
  | none => []
  | some input =>
    let inputRegion := input.largestPossibleRegion
    let outputStartFrame := F.output.GetRequestedTemporalRegion.frameStart
    let outputDuration := F.output.GetRequestedTemporalRegion.frameDuration
    dataLoopVisited extract input inputRegion F.m_FrameAxis
      ((outputStartFrame + outputDuration) % SizeValueModulus)
      SizeValueModulus outputStartFrame

/-! ## Auxiliary definitions for the proofs -/

/-- The indices of the list `l` at which the frame loop of `GenerateData` enters
its body when run over `l`. -/
def visitedRun (extract : Image P → ImageRegion → Except Failure (Image P))
    (input : Image P) (inputRegion : ImageRegion) (m_FrameAxis : Int) : List Nat → List Nat
  | [] => []
  | idx :: rest =>
    match extractFrame extract input inputRegion m_FrameAxis idx with
    | .error _ => [idx]
    | .ok _ => idx :: visitedRun extract input inputRegion m_FrameAxis rest


/-- The region of the axis loop after `c` frame axes were written. -/
def filledRegion (R : ImageRegion) (a c : Nat) : ImageRegion :=
  ⟨(R.index.eraseIdx a).take c ++ List.replicate ((R.index.eraseIdx a).length - c) 0,
   (R.size.eraseIdx a).take c ++ List.replicate ((R.size.eraseIdx a).length - c) 0⟩

/-- The frame loop of `GenerateOutputRequestedRegion` run over an explicit list
of frame indices. -/
def requestedRegionRun (dim : Nat) : List Nat → RequestedRegionPass P → RequestedRegionPass P
  | [], st => st
  | i :: rest, st =>
    requestedRegionRun dim rest
      ⟨{ st.filter with output := resolveFrame dim i st.filter.output }, st.inspected ++ [i]⟩

/-- The image that the modelled projection step returns for the frame `k`. -/
def sliceImage (input : Image P) (a k : Nat) : Image P :=
  { largestPossibleRegion := input.largestPossibleRegion.dropAxis a
    requestedRegion := input.largestPossibleRegion.dropAxis a
    pixel := fun p => input.pixel (insertAxis p a (toIndexValue k)) }

/-- The output stream that `GenerateOutputInformation` leaves for the input
region `R` and the frame axis `a`. -/
def derivedOutput (R : ImageRegion) (a : Nat) (out : VideoStream P) : VideoStream P :=
  { largestPossibleTemporalRegion := ⟨toSizeValue (R.index.getD a 0), R.size.getD a 0⟩
    requestedTemporalRegion := ⟨toSizeValue (R.index.getD a 0), R.size.getD a 0⟩
    largestPossibleSpatialRegion := fun _ => R.dropAxis a
    requestedSpatialRegion := out.requestedSpatialRegion
    frame := out.frame }

end ImageToVideoFilter

/-! ## Concrete inputs -/

/-- A region from lists. -/
def region (index : List Int) (size : List Nat) : ImageRegion := ⟨index, size⟩

/-- An image over the region `R` whose pixel at a position is the position. -/
def positionImage (R : ImageRegion) : Image (List Int) := ⟨R, R, fun p => p⟩

/-- A stream with no frame data and all regions default-constructed. -/
def emptyStream (dim : Nat) : VideoStream (List Int) :=
  ⟨⟨0, 0⟩, ⟨0, 0⟩, fun _ => ImageRegion.zero dim, fun _ => ImageRegion.zero dim, fun _ => none⟩

/-- A filter over a `4 x 5 x 6` input whose stream has the temporal region
`(0, 4)`, `5 x 6` largest possible spatial regions and, for the frame `1`, the
requested spatial region of size `(0, 3)`; all other requested spatial regions
are default-constructed. -/
def resolutionExample : ImageToVideoFilter (List Int) :=
  ⟨some (positionImage (region [0, 0, 0] [4, 5, 6])), 0,
    { emptyStream 2 with
      largestPossibleTemporalRegion := ⟨0, 4⟩
      requestedTemporalRegion := ⟨1, 2⟩
      largestPossibleSpatialRegion := fun _ => region [0, 0] [5, 6]
      requestedSpatialRegion := fun k => if k = 1 then region [0, 0] [0, 3] else ImageRegion.zero 2 }⟩

/-- A filter over a `4 x 5 x 6` input with frame axis `0` whose stream has the
largest possible temporal region `(0, 4)` and the requested temporal region
`(2, 5)`, and holds no frame data. -/
def outOfRangeExample : ImageToVideoFilter (List Int) :=
  ⟨some (positionImage (region [0, 0, 0] [4, 5, 6])), 0,
    { emptyStream 2 with
      largestPossibleTemporalRegion := ⟨0, 4⟩
      requestedTemporalRegion := ⟨2, 5⟩
      largestPossibleSpatialRegion := fun _ => region [0, 0] [5, 6] }⟩

/-- A filter over an input of index `(0, 0)` and size `(2^63 + 2, 1)` with
frame axis `0` and a default-constructed stream. -/
def longExample : ImageToVideoFilter (List Int) :=
  ⟨some (positionImage (region [0, 0] [9223372036854775810, 1])), 0, emptyStream 1⟩

/-- A filter over an input of index `(-2, 0)` and size `(4, 5)` with frame
axis `0` whose stream has the temporal region `(2^64 - 2, 4)` that is derived
from this input, largest possible spatial regions of size `(5)` and
default-constructed requested spatial regions. -/
def wrapExample : ImageToVideoFilter (List Int) :=
  ⟨some (positionImage (region [-2, 0] [4, 5])), 0,
    { emptyStream 1 with
      largestPossibleTemporalRegion := ⟨18446744073709551614, 4⟩
      requestedTemporalRegion := ⟨18446744073709551614, 4⟩
      largestPossibleSpatialRegion := fun _ => region [0] [5] }⟩

/-! # Lemmas -/

/-! ## Conversions -/

theorem toSizeValue_natCast (a : Nat) (h : a < 2 ^ 64) : toSizeValue (a : Int) = a := by
  unfold toSizeValue SizeValueModulus
  have : ((a : Int) % ((2 ^ 64 : Nat) : Int)) = a := by
    rw [Int.emod_eq_of_lt] <;> omega
  rw [this]; simp

theorem toSizeValue_cast (v : Int) : ((toSizeValue v : Nat) : Int) = v % 2 ^ 64 := by
  unfold toSizeValue SizeValueModulus
  have h : (0 : Int) ≤ v % ((2 ^ 64 : Nat) : Int) := Int.emod_nonneg _ (by norm_num)
  rw [Int.toNat_of_nonneg h]; norm_num

theorem toIndexValue_of_lt (k : Nat) (h : k < 2 ^ 63) : toIndexValue k = k := by
  unfold toIndexValue SizeValueModulus
  have : k % 2 ^ 64 = k := Nat.mod_eq_of_lt (by omega)
  rw [this, if_pos h]

/-! ## Lists -/

theorem set_take_replicate {α : Type} (z : α) :
    ∀ (E : List α) (c : Nat) (h : c < E.length),
      (E.take c ++ List.replicate (E.length - c) z).set c (E.get ⟨c, h⟩) =
        E.take (c + 1) ++ List.replicate (E.length - (c + 1)) z
  | [], c, h => by simp at h
  | x :: xs, 0, _ => by simp [List.replicate_succ]
  | x :: xs, c + 1, h => by
    have ih := set_take_replicate z xs c (by simpa using h)
    simpa using ih

theorem length_take_replicate {α : Type} (z : α) (E : List α) (c : Nat) (h : c ≤ E.length) :
    (E.take c ++ List.replicate (E.length - c) z).length = E.length := by
  simp; omega

theorem getElem?_eraseIdx_lt {α : Type} (l : List α) (a j : Nat) (h : j < a) :
    (l.eraseIdx a)[j]? = l[j]? := by
  rw [List.getElem?_eraseIdx]; simp [h]

theorem getElem?_eraseIdx_ge {α : Type} (l : List α) (a j : Nat) (h : a ≤ j) :
    (l.eraseIdx a)[j]? = l[j + 1]? := by
  rw [List.getElem?_eraseIdx]; simp [Nat.not_lt.mpr h]

namespace ImageToVideoFilter

theorem axisLoopBody_skip (R : ImageRegion) (a : Nat) (st : AxisLoopState) :
    axisLoopBody R (a : Int) st a = .ok st := by
  simp [axisLoopBody, pure, Except.pure]

theorem axisLoopBody_write (R : ImageRegion) (N a k c : Nat) (hi : R.index.length = N)
    (hs : R.size.length = N) (ha : a < N) (hk : k < N) (hka : k ≠ a)
    (hc : c = if k < a then k else k - 1) :
    axisLoopBody R (a : Int) ⟨filledRegion R a c, c, List.range c⟩ k =
      .ok ⟨filledRegion R a (c + 1), c + 1, List.range (c + 1)⟩ := by
  have hne : ¬ ((k : Int) = (a : Int)) := by exact_mod_cast hka
  have hEi : (R.index.eraseIdx a).length = N - 1 := by
    rw [List.length_eraseIdx]; simp [hi, ha]
  have hEs : (R.size.eraseIdx a).length = N - 1 := by
    rw [List.length_eraseIdx]; simp [hs, ha]
  have hcN : c < N - 1 := by
    subst hc; split <;> omega
  have hki : k < R.index.length := by omega
  have hks : k < R.size.length := by omega
  have hgi : (R.index.eraseIdx a)[c]? = R.index[k]? := by
    subst hc
    by_cases h : k < a
    · simp only [h, if_true]; exact getElem?_eraseIdx_lt _ _ _ h
    · simp only [h, if_false]
      rw [getElem?_eraseIdx_ge _ _ _ (by omega)]
      congr 1; omega
  have hgs : (R.size.eraseIdx a)[c]? = R.size[k]? := by
    subst hc
    by_cases h : k < a
    · simp only [h, if_true]; exact getElem?_eraseIdx_lt _ _ _ h
    · simp only [h, if_false]
      rw [getElem?_eraseIdx_ge _ _ _ (by omega)]
      congr 1; omega
  have hci : c < (R.index.eraseIdx a).length := by omega
  have hcs : c < (R.size.eraseIdx a).length := by omega
  have hvi : R.index[k] = (R.index.eraseIdx a).get ⟨c, hci⟩ := by
    have h1 : (R.index.eraseIdx a)[c]? = some ((R.index.eraseIdx a).get ⟨c, hci⟩) := by
      simp [List.getElem?_eq_getElem hci]
    have h2 : R.index[k]? = some R.index[k] := List.getElem?_eq_getElem hki
    rw [hgi, h2] at h1
    exact Option.some.inj h1
  have hvs : R.size[k] = (R.size.eraseIdx a).get ⟨c, hcs⟩ := by
    have h1 : (R.size.eraseIdx a)[c]? = some ((R.size.eraseIdx a).get ⟨c, hcs⟩) := by
      simp [List.getElem?_eq_getElem hcs]
    have h2 : R.size[k]? = some R.size[k] := List.getElem?_eq_getElem hks
    rw [hgs, h2] at h1
    exact Option.some.inj h1
  have hli := length_take_replicate (0 : Int) (R.index.eraseIdx a) c (by omega)
  have hls := length_take_replicate (0 : Nat) (R.size.eraseIdx a) c (by omega)
  have hsi := set_take_replicate (0 : Int) (R.index.eraseIdx a) c hci
  have hss := set_take_replicate (0 : Nat) (R.size.eraseIdx a) c hcs
  simp only [axisLoopBody, hne, ne_eq, not_false_eq_true, if_true, ImageRegion.GetSize,
    ImageRegion.GetIndex, List.getElem?_eq_getElem hki, List.getElem?_eq_getElem hks,
    bind, Except.bind, ImageRegion.SetSize, ImageRegion.SetIndex, filledRegion, hls, hli, hcs, hci,
    pure, Except.pure, hvi, hvs, hsi, hss, List.range_succ]

theorem axisLoop_upto (R : ImageRegion) (N a : Nat) (hi : R.index.length = N)
    (hs : R.size.length = N) (ha : a < N) :
    ∀ k, k ≤ N →
      (List.range k).foldlM (axisLoopBody R (a : Int)) ⟨filledRegion R a 0, 0, []⟩ =
        .ok ⟨filledRegion R a (if k ≤ a then k else k - 1), (if k ≤ a then k else k - 1),
          List.range (if k ≤ a then k else k - 1)⟩
  | 0, _ => by simp [pure, Except.pure]
  | k + 1, hk => by
    have ih := axisLoop_upto R N a hi hs ha k (by omega)
    rw [List.range_succ, List.foldlM_append, ih]
    simp only [bind, Except.bind, List.foldlM, pure, Except.pure]
    by_cases hka : k = a
    · subst hka
      rw [axisLoopBody_skip]
      simp
    · have hw := axisLoopBody_write R N a k (if k ≤ a then k else k - 1) hi hs ha (by omega) hka
        (by split <;> split <;> omega)
      rw [hw]
      have : (if k ≤ a then k else k - 1) + 1 = (if k + 1 ≤ a then k + 1 else k + 1 - 1) := by
        split <;> split <;> omega
      rw [this]

theorem filledRegion_zero (R : ImageRegion) (N a : Nat) (hi : R.index.length = N)
    (hs : R.size.length = N) (ha : a < N) : filledRegion R a 0 = ImageRegion.zero (N - 1) := by
  simp [filledRegion, ImageRegion.zero, List.length_eraseIdx, hi, hs, ha]

theorem filledRegion_full (R : ImageRegion) (N a : Nat) (hi : R.index.length = N)
    (hs : R.size.length = N) (ha : a < N) : filledRegion R a (N - 1) = R.dropAxis a := by
  have hEi : (R.index.eraseIdx a).length = N - 1 := by
    rw [List.length_eraseIdx]; simp [hi, ha]
  have hEs : (R.size.eraseIdx a).length = N - 1 := by
    rw [List.length_eraseIdx]; simp [hs, ha]
  simp [filledRegion, ImageRegion.dropAxis, hEi, hEs, List.take_of_length_le]

/-- The axis loop on a region of dimension `N` and a frame axis `a < N`
returns the region with axis `a` removed, having written the frame axes
`0, ..., N - 2` once each, in order. -/
theorem axisLoop_eq (R : ImageRegion) (N a : Nat) (hi : R.index.length = N)
    (hs : R.size.length = N) (ha : a < N) :
    axisLoop N R (a : Int) = .ok ⟨R.dropAxis a, N - 1, List.range (N - 1)⟩ := by
  have h := axisLoop_upto R N a hi hs ha N (le_refl N)
  have hN : (if N ≤ a then N else N - 1) = N - 1 := by split <;> omega
  rw [hN, filledRegion_zero R N a hi hs ha, filledRegion_full R N a hi hs ha] at h
  exact h

end ImageToVideoFilter

namespace ImageToVideoFilter

variable {P : Type}

/-! ## The frame loop of `GenerateOutputRequestedRegion` -/

theorem requestedRegionLoop_eq_run (dim bound : Nat) (hb : bound < SizeValueModulus) :
    ∀ (fuel i : Nat) (st : RequestedRegionPass P), bound - i ≤ fuel →
      requestedRegionLoop dim bound fuel i st =
        requestedRegionRun dim (List.range' i (bound - i)) st
  | 0, i, st, h => by
    have : bound - i = 0 := by omega
    simp [requestedRegionLoop, this, requestedRegionRun]
  | fuel + 1, i, st, h => by
    by_cases hi : i < bound
    · have hmod : (i + 1) % SizeValueModulus = i + 1 := Nat.mod_eq_of_lt (by omega)
      have hsub : bound - i = (bound - (i + 1)) + 1 := by omega
      rw [requestedRegionLoop, if_pos hi, hmod, hsub, List.range'_succ, requestedRegionRun]
      exact requestedRegionLoop_eq_run dim bound hb fuel (i + 1) _ (by omega)
    · have : bound - i = 0 := by omega
      rw [requestedRegionLoop, if_neg hi, this]
      simp [requestedRegionRun]

theorem requestedRegionRun_inspected (dim : Nat) :
    ∀ (l : List Nat) (st : RequestedRegionPass P),
      (requestedRegionRun dim l st).inspected = st.inspected ++ l
  | [], st => by simp [requestedRegionRun]
  | i :: rest, st => by
    rw [requestedRegionRun, requestedRegionRun_inspected dim rest]; simp

theorem resolveFrame_requested (dim i k : Nat) (out : VideoStream P) :
    (resolveFrame dim i out).requestedSpatialRegion k =
      if k = i ∧ validRegion dim (out.requestedSpatialRegion k) = false then
        out.largestPossibleSpatialRegion k
      else out.requestedSpatialRegion k := by
  unfold resolveFrame
  simp only [VideoStream.GetFrameRequestedSpatialRegion,
    VideoStream.GetFrameLargestPossibleSpatialRegion, VideoStream.SetFrameRequestedSpatialRegion]
  by_cases hk : k = i
  · subst hk
    cases hv : validRegion dim (out.requestedSpatialRegion k) <;> simp [hv]
  · cases hv : validRegion dim (out.requestedSpatialRegion i) <;> simp [hv, hk]

theorem resolveFrame_fixed (dim i : Nat) (out : VideoStream P) :
    (resolveFrame dim i out).largestPossibleTemporalRegion = out.largestPossibleTemporalRegion ∧
    (resolveFrame dim i out).requestedTemporalRegion = out.requestedTemporalRegion ∧
    (resolveFrame dim i out).largestPossibleSpatialRegion = out.largestPossibleSpatialRegion ∧
    (resolveFrame dim i out).frame = out.frame := by
  unfold resolveFrame
  simp only [VideoStream.GetFrameRequestedSpatialRegion,
    VideoStream.GetFrameLargestPossibleSpatialRegion, VideoStream.SetFrameRequestedSpatialRegion]
  split <;> simp

theorem requestedRegionRun_fixed (dim : Nat) :
    ∀ (l : List Nat) (st : RequestedRegionPass P),
      (requestedRegionRun dim l st).filter.input = st.filter.input ∧
      (requestedRegionRun dim l st).filter.m_FrameAxis = st.filter.m_FrameAxis ∧
      (requestedRegionRun dim l st).filter.output.largestPossibleTemporalRegion =
        st.filter.output.largestPossibleTemporalRegion ∧
      (requestedRegionRun dim l st).filter.output.requestedTemporalRegion =
        st.filter.output.requestedTemporalRegion ∧
      (requestedRegionRun dim l st).filter.output.largestPossibleSpatialRegion =
        st.filter.output.largestPossibleSpatialRegion ∧
      (requestedRegionRun dim l st).filter.output.frame = st.filter.output.frame
  | [], st => by simp [requestedRegionRun]
  | i :: rest, st => by
    have ih := requestedRegionRun_fixed dim rest
      ⟨{ st.filter with output := resolveFrame dim i st.filter.output }, st.inspected ++ [i]⟩
    have hf := resolveFrame_fixed dim i st.filter.output
    rw [requestedRegionRun]
    simp only [] at ih
    refine ⟨ih.1, ih.2.1, ?_, ?_, ?_, ?_⟩
    · rw [ih.2.2.1, hf.1]
    · rw [ih.2.2.2.1, hf.2.1]
    · rw [ih.2.2.2.2.1, hf.2.2.1]
    · rw [ih.2.2.2.2.2, hf.2.2.2]

/-- After the run over `l`, the requested spatial region of the frame `k` is its
largest possible one when `k` is in `l` and its region failed `validRegion`,
and is unchanged otherwise. -/
theorem requestedRegionRun_requested (dim : Nat) (k : Nat) :
    ∀ (l : List Nat) (st : RequestedRegionPass P),
      (requestedRegionRun dim l st).filter.output.requestedSpatialRegion k =
        if k ∈ l ∧ validRegion dim (st.filter.output.requestedSpatialRegion k) = false then
          st.filter.output.largestPossibleSpatialRegion k
        else st.filter.output.requestedSpatialRegion k
  | [], st => by simp [requestedRegionRun]
  | i :: rest, st => by
    rw [requestedRegionRun, requestedRegionRun_requested dim k rest]
    simp only []
    rw [resolveFrame_requested, (resolveFrame_fixed dim i st.filter.output).2.2.1]
    by_cases hki : k = i
    · subst hki
      cases hv : validRegion dim (st.filter.output.requestedSpatialRegion k) <;> simp [hv]
    · cases hv : validRegion dim (st.filter.output.requestedSpatialRegion k) <;> simp [hki, hv]

theorem GenerateOutputRequestedRegion_eq_run (N : Nat) (F : ImageToVideoFilter P) :
    GenerateOutputRequestedRegion N F =
      requestedRegionRun (N - 1)
        (List.range' F.output.largestPossibleTemporalRegion.frameStart
          ((F.output.largestPossibleTemporalRegion.frameStart +
              F.output.largestPossibleTemporalRegion.frameDuration) % SizeValueModulus -
            F.output.largestPossibleTemporalRegion.frameStart))
        ⟨{ F with output :=
            F.output.SetRequestedTemporalRegion F.output.GetLargestPossibleTemporalRegion }, []⟩ := by
  unfold GenerateOutputRequestedRegion
  simp only [VideoStream.SetRequestedTemporalRegion, VideoStream.GetLargestPossibleTemporalRegion,
    VideoStream.GetRequestedTemporalRegion]
  apply requestedRegionLoop_eq_run
  · exact Nat.mod_lt _ (by unfold SizeValueModulus; norm_num)
  · have := Nat.mod_lt (F.output.largestPossibleTemporalRegion.frameStart +
      F.output.largestPossibleTemporalRegion.frameDuration)
      (show 0 < SizeValueModulus by unfold SizeValueModulus; norm_num)
    omega

end ImageToVideoFilter

theorem eraseIdx_set_same {α : Type} (v : α) :
    ∀ (l : List α) (a : Nat), (l.set a v).eraseIdx a = l.eraseIdx a
  | [], _ => by simp
  | _ :: _, 0 => by simp
  | x :: xs, a + 1 => by simp [eraseIdx_set_same v xs a]

theorem getD_set_same {α : Type} (l : List α) (a : Nat) (v d : α) (h : a < l.length) :
    (l.set a v).getD a d = v := by
  simp [List.getElem?_set, h]

theorem getD_set_other {α : Type} (l : List α) (a j : Nat) (v d : α) (h : j ≠ a) :
    (l.set a v).getD j d = l.getD j d := by
  simp [List.getElem?_set_ne (Ne.symm h)]

namespace ImageToVideoFilter

variable {P : Type}

theorem inputSliceRegion_eq (R : ImageRegion) (a k : Nat) (ha64 : a < 2 ^ 64)
    (hi : a < R.index.length) (hs : a < R.size.length) :
    inputSliceRegion R (a : Int) k = .ok ⟨R.index.set a (toIndexValue k), R.size.set a 0⟩ := by
  simp [inputSliceRegion, toSizeValue_natCast a ha64, ImageRegion.SetSize, ImageRegion.SetIndex,
    hi, hs, bind, Except.bind]

theorem sliceInside_slice (R : ImageRegion) (a k : Nat) (hi : a < R.index.length) :
    sliceInside R ⟨R.index.set a (toIndexValue k), R.size.set a 0⟩ a = decide (inExtent R a k) := by
  rw [Bool.eq_iff_iff]
  simp only [sliceInside, List.all_eq_true, List.mem_range, decide_eq_true_eq]
  constructor
  · intro h
    have := h a hi
    rw [if_pos rfl, decide_eq_true_eq, getD_set_same _ _ _ _ hi] at this
    exact this
  · intro h j _
    by_cases hja : j = a
    · subst hja
      rw [if_pos rfl, decide_eq_true_eq, getD_set_same _ _ _ _ hi]
      exact h
    · rw [if_neg hja, decide_eq_true_eq, getD_set_other _ _ _ _ _ hja,
        getD_set_other _ _ _ _ _ hja]
      exact ⟨le_refl _, le_refl _⟩

theorem extractFrame_model (input : Image P) (a k : Nat) (ha64 : a < 2 ^ 64)
    (hi : a < input.largestPossibleRegion.index.length)
    (hs : a < input.largestPossibleRegion.size.length) :
    extractFrame (ExtractImageFilter a) input input.largestPossibleRegion (a : Int) k =
      if inExtent input.largestPossibleRegion a k then .ok (sliceImage input a k)
      else .error .regionOutOfBounds := by
  rw [extractFrame, inputSliceRegion_eq _ a k ha64 hi hs]
  simp only [bind, Except.bind, ExtractImageFilter]
  rw [sliceInside_slice _ a k hi]
  by_cases h : inExtent input.largestPossibleRegion a k
  · have hg := getD_set_same input.largestPossibleRegion.index a (toIndexValue k) 0 hi
    simp only [h, decide_True, if_true, sliceImage, ImageRegion.dropAxis, eraseIdx_set_same, hg]
  · simp [h]

theorem frameOk_model (input : Image P) (a k : Nat) (ha64 : a < 2 ^ 64)
    (hi : a < input.largestPossibleRegion.index.length)
    (hs : a < input.largestPossibleRegion.size.length) :
    frameOk (ExtractImageFilter a) input input.largestPossibleRegion (a : Int) k =
      decide (inExtent input.largestPossibleRegion a k) := by
  rw [frameOk, extractFrame_model input a k ha64 hi hs]
  by_cases h : inExtent input.largestPossibleRegion a k <;> simp [h]

/-! ## The frame loop of `GenerateData` -/

theorem dataLoop_eq_run (extract : Image P → ImageRegion → Except Failure (Image P))
    (input : Image P) (R : ImageRegion) (axis : Int) (bound : Nat)
    (hb : bound < SizeValueModulus) :
    ∀ (fuel idx : Nat) (st : DataPass P), bound - idx ≤ fuel →
      dataLoop extract input R axis bound fuel idx st =
        dataRun extract input R axis (List.range' idx (bound - idx)) st
  | 0, idx, st, h => by
    have : bound - idx = 0 := by omega
    simp [dataLoop, this, dataRun]
  | fuel + 1, idx, st, h => by
    by_cases hi : idx < bound
    · have hmod : (idx + 1) % SizeValueModulus = idx + 1 := Nat.mod_eq_of_lt (by omega)
      have hsub : bound - idx = (bound - (idx + 1)) + 1 := by omega
      rw [dataLoop, if_pos hi, hmod, hsub, List.range'_succ, dataRun]
      cases hx : extractFrame extract input R axis idx with
      | error e => rfl
      | ok image =>
        exact dataLoop_eq_run extract input R axis bound hb fuel (idx + 1) _ (by omega)
    · have : bound - idx = 0 := by omega
      rw [dataLoop, if_neg hi, this]
      simp [dataRun]

theorem frameOk_iff (extract : Image P → ImageRegion → Except Failure (Image P))
    (input : Image P) (R : ImageRegion) (axis : Int) (k : Nat) :
    frameOk extract input R axis k = true ↔ ∃ image, extractFrame extract input R axis k = .ok image := by
  unfold frameOk
  cases extractFrame extract input R axis k <;> simp

theorem dataRun_written (extract : Image P → ImageRegion → Except Failure (Image P))
    (input : Image P) (R : ImageRegion) (axis : Int) :
    ∀ (l : List Nat) (st : DataPass P),
      (dataRun extract input R axis l st).written =
        st.written ++ l.takeWhile (frameOk extract input R axis)
  | [], st => by simp [dataRun]
  | i :: rest, st => by
    rw [dataRun]
    cases hx : extractFrame extract input R axis i with
    | error e =>
      have : frameOk extract input R axis i = false := by simp [frameOk, hx]
      simp [List.takeWhile_cons, this]
    | ok image =>
      have : frameOk extract input R axis i = true := by simp [frameOk, hx]
      simp only []
      rw [dataRun_written extract input R axis rest, List.takeWhile_cons, this]
      simp [graftStep]

theorem dataRun_fixed (extract : Image P → ImageRegion → Except Failure (Image P))
    (input : Image P) (R : ImageRegion) (axis : Int) :
    ∀ (l : List Nat) (st : DataPass P),
      (dataRun extract input R axis l st).filter.input = st.filter.input ∧
      (dataRun extract input R axis l st).filter.m_FrameAxis = st.filter.m_FrameAxis ∧
      (dataRun extract input R axis l st).filter.output.largestPossibleTemporalRegion =
        st.filter.output.largestPossibleTemporalRegion ∧
      (dataRun extract input R axis l st).filter.output.requestedTemporalRegion =
        st.filter.output.requestedTemporalRegion ∧
      (dataRun extract input R axis l st).filter.output.largestPossibleSpatialRegion =
        st.filter.output.largestPossibleSpatialRegion ∧
      (dataRun extract input R axis l st).filter.output.requestedSpatialRegion =
        st.filter.output.requestedSpatialRegion
  | [], st => by simp [dataRun]
  | i :: rest, st => by
    rw [dataRun]
    cases hx : extractFrame extract input R axis i with
    | error e => simp
    | ok image =>
      simp only []
      have ih := dataRun_fixed extract input R axis rest (graftStep st i image)
      simpa [graftStep, VideoStream.GraftFrame] using ih

theorem dataRun_failure_none (extract : Image P → ImageRegion → Except Failure (Image P))
    (input : Image P) (R : ImageRegion) (axis : Int) :
    ∀ (l : List Nat) (st : DataPass P), (∀ k ∈ l, frameOk extract input R axis k = true) →
      (dataRun extract input R axis l st).failure = st.failure
  | [], st, _ => by simp [dataRun]
  | i :: rest, st, h => by
    rw [dataRun]
    obtain ⟨image, hx⟩ := (frameOk_iff extract input R axis i).mp (h i (by simp))
    rw [hx]
    simp only []
    rw [dataRun_failure_none extract input R axis rest _ (fun k hk => h k (by simp [hk]))]
    rfl

theorem dataRun_range_failure (extract : Image P → ImageRegion → Except Failure (Image P))
    (input : Image P) (R : ImageRegion) (axis : Int) :
    ∀ (d s : Nat) (st : DataPass P),
      (∃ k, s ≤ k ∧ k < s + d ∧ frameOk extract input R axis k = false) →
      ∃ f e, s ≤ f ∧ f < s + d ∧ extractFrame extract input R axis f = .error e ∧
        (∀ k, s ≤ k → k < f → frameOk extract input R axis k = true) ∧
        (List.range' s d).takeWhile (frameOk extract input R axis) = List.range' s (f - s) ∧
        (dataRun extract input R axis (List.range' s d) st).failure = some e
  | 0, s, st, h => by
    obtain ⟨k, h1, h2, _⟩ := h
    omega
  | d + 1, s, st, h => by
    rw [List.range'_succ, dataRun]
    cases hx : extractFrame extract input R axis s with
    | error e =>
      have hno : frameOk extract input R axis s = false := by simp [frameOk, hx]
      refine ⟨s, e, le_refl s, by omega, hx, fun k h1 h2 => by omega, ?_, rfl⟩
      simp [List.takeWhile_cons, hno]
    | ok image =>
      have hok : frameOk extract input R axis s = true := by simp [frameOk, hx]
      obtain ⟨k, h1, h2, h3⟩ := h
      have hks : k ≠ s := by
        intro hks
        rw [hks, hok] at h3
        exact Bool.noConfusion h3
      obtain ⟨f, e, hf1, hf2, hf3, hf4, hf5, hf6⟩ :=
        dataRun_range_failure extract input R axis d (s + 1) (graftStep st s image)
          ⟨k, by omega, by omega, h3⟩
      refine ⟨f, e, by omega, by omega, hf3, ?_, ?_, hf6⟩
      · intro j hj1 hj2
        by_cases hjs : j = s
        · rw [hjs]; exact hok
        · exact hf4 j (by omega) hj2
      · rw [List.takeWhile_cons, hok, if_pos rfl, hf5]
        have : f - s = (f - (s + 1)) + 1 := by omega
        rw [this, List.range'_succ]

/-- After the run, the frame `k` holds the image extracted for it when `k` is
one of the indices written, and is unchanged otherwise. -/
theorem dataRun_frame (extract : Image P → ImageRegion → Except Failure (Image P))
    (input : Image P) (R : ImageRegion) (axis : Int) (k : Nat) :
    ∀ (l : List Nat) (st : DataPass P),
      (dataRun extract input R axis l st).filter.output.frame k =
        if k ∈ l.takeWhile (frameOk extract input R axis) then
          (match extractFrame extract input R axis k with
            | .ok image => some image
            | .error _ => none)
        else st.filter.output.frame k
  | [], st => by simp [dataRun]
  | i :: rest, st => by
    rw [dataRun]
    cases hx : extractFrame extract input R axis i with
    | error e =>
      have : frameOk extract input R axis i = false := by simp [frameOk, hx]
      simp [List.takeWhile_cons, this]
    | ok image =>
      have hok : frameOk extract input R axis i = true := by simp [frameOk, hx]
      simp only []
      rw [dataRun_frame extract input R axis k rest, List.takeWhile_cons, hok]
      by_cases hki : k = i
      · subst hki
        simp [graftStep, VideoStream.GraftFrame, hx]
      · simp [graftStep, VideoStream.GraftFrame, hki]

end ImageToVideoFilter

theorem ImageRegion.GetIndex_of_lt (R : ImageRegion) (a : Nat) (h : a < R.index.length) :
    R.GetIndex a = .ok (R.index.getD a 0) := by
  simp [ImageRegion.GetIndex, List.getElem?_eq_getElem h]

theorem ImageRegion.GetSize_of_lt (R : ImageRegion) (a : Nat) (h : a < R.size.length) :
    R.GetSize a = .ok (R.size.getD a 0) := by
  simp [ImageRegion.GetSize, List.getElem?_eq_getElem h]

namespace ImageToVideoFilter

variable {P : Type}

theorem GenerateOutputInformation_eq (N a : Nat) (input : Image P) (out : VideoStream P)
    (hN : N < 2 ^ 32) (ha : a < N) (hi : input.largestPossibleRegion.index.length = N)
    (hs : input.largestPossibleRegion.size.length = N) :
    GenerateOutputInformation N ⟨some input, (a : Int), out⟩ =
      .ok ⟨some input, (a : Int), derivedOutput input.largestPossibleRegion a out⟩ := by
  have ha64 : a < 2 ^ 64 := by omega
  have hgi := ImageRegion.GetIndex_of_lt input.largestPossibleRegion a (by omega)
  have hgs := ImageRegion.GetSize_of_lt input.largestPossibleRegion a (by omega)
  simp only [GenerateOutputInformation, GetInput, toSizeValue_natCast a ha64, hgi, hgs,
    axisLoop_eq _ N a hi hs ha, bind, Except.bind, pure, Except.pure, derivedOutput,
    VideoStream.SetLargestPossibleTemporalRegion, VideoStream.SetAllLargestPossibleSpatialRegions,
    VideoStream.SetRequestedRegionToLargestPossibleRegion, VideoStream.SetRequestedTemporalRegion,
    VideoStream.GetLargestPossibleTemporalRegion]

theorem GenerateData_eq_run (extract : Image P → ImageRegion → Except Failure (Image P))
    (F : ImageToVideoFilter P) (input : Image P) (hF : F.input = some input) :
    GenerateData extract F =
      dataRun extract input input.largestPossibleRegion F.m_FrameAxis
        (List.range' F.output.requestedTemporalRegion.frameStart
          ((F.output.requestedTemporalRegion.frameStart +
              F.output.requestedTemporalRegion.frameDuration) % SizeValueModulus -
            F.output.requestedTemporalRegion.frameStart))
        ⟨F, [], none⟩ := by
  unfold GenerateData GetInput
  rw [hF]
  simp only [VideoStream.GetRequestedTemporalRegion]
  apply dataLoop_eq_run
  · exact Nat.mod_lt _ (by unfold SizeValueModulus; norm_num)
  · have := Nat.mod_lt (F.output.requestedTemporalRegion.frameStart +
      F.output.requestedTemporalRegion.frameDuration)
      (show 0 < SizeValueModulus by unfold SizeValueModulus; norm_num)
    omega

end ImageToVideoFilter

namespace ImageToVideoFilter

variable {P : Type}

theorem validRegion_eq_true_iff (dim : Nat) (r : ImageRegion) :
    validRegion dim r = true ↔ ∃ j, j < dim ∧ r.size.getD j 0 ≠ 0 := by
  simp [validRegion]

theorem validRegion_eq_false_iff (dim : Nat) (r : ImageRegion) :
    validRegion dim r = false ↔ ∀ j, j < dim → r.size.getD j 0 = 0 := by
  rw [← Bool.not_eq_true, validRegion_eq_true_iff]
  constructor
  · intro h j hj
    by_contra hne
    exact h ⟨j, hj, hne⟩
  · rintro h ⟨j, hj, hne⟩
    exact hne (h j hj)

/-- The requested spatial region of the frame `k` after
`GenerateOutputRequestedRegion`: the largest possible one when the loop visits
`k` and the region fails `validRegion`, the one before otherwise. -/
theorem GenerateOutputRequestedRegion_requested (N : Nat) (F : ImageToVideoFilter P) (k : Nat) :
    (GenerateOutputRequestedRegion N F).filter.output.requestedSpatialRegion k =
      if (F.output.largestPossibleTemporalRegion.frameStart ≤ k ∧
          k < (F.output.largestPossibleTemporalRegion.frameStart +
            F.output.largestPossibleTemporalRegion.frameDuration) % SizeValueModulus) ∧
          validRegion (N - 1) (F.output.requestedSpatialRegion k) = false then
        F.output.largestPossibleSpatialRegion k
      else F.output.requestedSpatialRegion k := by
  rw [GenerateOutputRequestedRegion_eq_run, requestedRegionRun_requested]
  simp only [VideoStream.SetRequestedTemporalRegion, List.mem_range'_1]
  have hiff : ∀ s b : Nat, (s ≤ k ∧ k < s + (b - s)) ↔ (s ≤ k ∧ k < b) := by
    intro s b; constructor <;> rintro ⟨h1, h2⟩ <;> exact ⟨h1, by omega⟩
  simp only [hiff]

theorem GenerateOutputRequestedRegion_fixed (N : Nat) (F : ImageToVideoFilter P) :
    (GenerateOutputRequestedRegion N F).filter.input = F.input ∧
    (GenerateOutputRequestedRegion N F).filter.m_FrameAxis = F.m_FrameAxis ∧
    (GenerateOutputRequestedRegion N F).filter.output.largestPossibleTemporalRegion =
      F.output.largestPossibleTemporalRegion ∧
    (GenerateOutputRequestedRegion N F).filter.output.requestedTemporalRegion =
      F.output.largestPossibleTemporalRegion ∧
    (GenerateOutputRequestedRegion N F).filter.output.largestPossibleSpatialRegion =
      F.output.largestPossibleSpatialRegion ∧
    (GenerateOutputRequestedRegion N F).filter.output.frame = F.output.frame := by
  rw [GenerateOutputRequestedRegion_eq_run]
  exact requestedRegionRun_fixed (N - 1) _ _

theorem GenerateOutputRequestedRegion_inspected (N : Nat) (F : ImageToVideoFilter P) :
    (GenerateOutputRequestedRegion N F).inspected =
      List.range' F.output.largestPossibleTemporalRegion.frameStart
        ((F.output.largestPossibleTemporalRegion.frameStart +
            F.output.largestPossibleTemporalRegion.frameDuration) % SizeValueModulus -
          F.output.largestPossibleTemporalRegion.frameStart) := by
  rw [GenerateOutputRequestedRegion_eq_run, requestedRegionRun_inspected]
  simp

theorem mod_of_no_overflow (s d : Nat) (h : s + d < 2 ^ 64) : (s + d) % SizeValueModulus = s + d :=
  Nat.mod_eq_of_lt (by unfold SizeValueModulus; exact h)

end ImageToVideoFilter

namespace ImageToVideoFilter

variable {P : Type}

/-- The pass `GenerateData` as a run over the frames `s, ..., s + d - 1` of the requested
temporal region `(s, d)`, when `s + d` is below `2^64`. -/
theorem GenerateData_eq_run_of_no_overflow
    (extract : Image P → ImageRegion → Except Failure (Image P))
    (F : ImageToVideoFilter P) (input : Image P) (hF : F.input = some input)
    (hov : F.output.requestedTemporalRegion.frameStart +
      F.output.requestedTemporalRegion.frameDuration < 2 ^ 64) :
    GenerateData extract F =
      dataRun extract input input.largestPossibleRegion F.m_FrameAxis
        (List.range' F.output.requestedTemporalRegion.frameStart
          F.output.requestedTemporalRegion.frameDuration) ⟨F, [], none⟩ := by
  rw [GenerateData_eq_run extract F input hF, mod_of_no_overflow _ _ hov, Nat.add_sub_cancel_left]

theorem takeWhile_subset_range (p : Nat → Bool) (s d k : Nat)
    (h : k ∈ (List.range' s d).takeWhile p) : s ≤ k ∧ k < s + d := by
  have hsub : (List.range' s d).takeWhile p ⊆ List.range' s d :=
    (List.takeWhile_sublist p).subset
  exact List.mem_range'_1.mp (hsub h)

end ImageToVideoFilter

/-! ## Claims -/

open ImageToVideoFilter

variable {P : Type}

/-- C1 (as amended). For every input largest-possible region of dimension `N`
and frame axis `a < N`, `GenerateOutputInformation` publishes a largest-possible
temporal region whose frame start is the index of the input region on axis `a`
reduced modulo `2^64` (the index itself when it is not negative) and whose
frame duration is the size of the input region on axis `a`. -/
theorem GenerateOutputInformation_temporalRegion (N a : Nat) (input : Image P)
    (out : VideoStream P) (hN : N < 2 ^ 32) (ha : a < N)
    (hR : input.largestPossibleRegion.WF N) :
    ∃ F, GenerateOutputInformation N ⟨some input, (a : Int), out⟩ = .ok F ∧
      (F.output.largestPossibleTemporalRegion.frameStart : Int) =
        input.largestPossibleRegion.index.getD a 0 % 2 ^ 64 ∧
      (0 ≤ input.largestPossibleRegion.index.getD a 0 →
        (F.output.largestPossibleTemporalRegion.frameStart : Int) =
          input.largestPossibleRegion.index.getD a 0) ∧
      F.output.largestPossibleTemporalRegion.frameDuration =
        input.largestPossibleRegion.size.getD a 0 := by
  obtain ⟨hi, hs, hvi, _⟩ := hR
  refine ⟨_, GenerateOutputInformation_eq N a input out hN ha hi hs, ?_, ?_, rfl⟩
  · exact toSizeValue_cast _
  · intro h0
    have hmem : input.largestPossibleRegion.index.getD a 0 ∈ input.largestPossibleRegion.index := by
      have hlt : a < input.largestPossibleRegion.index.length := by omega
      simp [List.getElem?_eq_getElem hlt]
    have hb := (hvi _ hmem).2
    show ((toSizeValue _ : Nat) : Int) = _
    rw [toSizeValue_cast]
    exact Int.emod_eq_of_lt h0 (by omega)

/-- C1, witness: the input region of index `(3, 0, 0)` and size `(4, 5, 6)`
with frame axis `0`. -/
theorem GenerateOutputInformation_temporalRegion_witness :
    (3 < 2 ^ 32 ∧ 0 < 3 ∧ (region [3, 0, 0] [4, 5, 6]).WF 3) ∧
    ∃ F, GenerateOutputInformation 3
        ⟨some (positionImage (region [3, 0, 0] [4, 5, 6])), ((0 : Nat) : Int), emptyStream 2⟩ = .ok F ∧
      (F.output.largestPossibleTemporalRegion.frameStart : Int) = 3 ∧
      F.output.largestPossibleTemporalRegion.frameDuration = 4 := by
  refine ⟨by decide, ?_⟩
  obtain ⟨F, h, _, h2, h3⟩ := GenerateOutputInformation_temporalRegion 3 0
    (positionImage (region [3, 0, 0] [4, 5, 6])) (emptyStream 2) (by decide) (by decide) (by decide)
  exact ⟨F, h, h2 (by decide), h3⟩

/-- C1, counterexample: for the input region of index `(-2, 0)` and size
`(4, 5)` with frame axis `0`, the published frame start is
`18446744073709551614`, not the index `-2`. -/
theorem GenerateOutputInformation_frameStart_counterexample :
    ∃ F, GenerateOutputInformation 2
        ⟨some (positionImage (region [-2, 0] [4, 5])), 0, emptyStream 1⟩ = .ok F ∧
      (region [-2, 0] [4, 5]).GetIndex 0 = .ok (-2) ∧
      F.output.largestPossibleTemporalRegion.frameStart = 18446744073709551614 ∧
      (F.output.largestPossibleTemporalRegion.frameStart : Int) ≠ -2 :=
  ⟨_, rfl, rfl, by decide, by decide⟩

/-- C2. For every input largest-possible region of dimension `N` and every
frame axis `a < N`, the largest-possible spatial region that
`GenerateOutputInformation` publishes for every frame is the input region with
axis `a` removed: it has dimension `N - 1`, for `j < a` its axis `j` has the
index and size of input axis `j`, and for `a < j < N` its axis `j - 1` has the
index and size of input axis `j`. -/
theorem GenerateOutputInformation_spatialRegion (N a : Nat) (input : Image P)
    (out : VideoStream P) (hN : N < 2 ^ 32) (ha : a < N)
    (hR : input.largestPossibleRegion.WF N) :
    ∃ F, GenerateOutputInformation N ⟨some input, (a : Int), out⟩ = .ok F ∧
      ∀ f : Nat,
        F.output.largestPossibleSpatialRegion f = input.largestPossibleRegion.dropAxis a ∧
        (F.output.largestPossibleSpatialRegion f).index.length = N - 1 ∧
        (F.output.largestPossibleSpatialRegion f).size.length = N - 1 ∧
        (∀ j, j < a →
          (F.output.largestPossibleSpatialRegion f).index[j]? =
            input.largestPossibleRegion.index[j]? ∧
          (F.output.largestPossibleSpatialRegion f).size[j]? =
            input.largestPossibleRegion.size[j]?) ∧
        (∀ j, a < j → j < N →
          (F.output.largestPossibleSpatialRegion f).index[j - 1]? =
            input.largestPossibleRegion.index[j]? ∧
          (F.output.largestPossibleSpatialRegion f).size[j - 1]? =
            input.largestPossibleRegion.size[j]?) := by
  obtain ⟨hi, hs, _, _⟩ := hR
  refine ⟨_, GenerateOutputInformation_eq N a input out hN ha hi hs, fun f => ?_⟩
  refine ⟨rfl, ?_, ?_, ?_, ?_⟩
  · show (input.largestPossibleRegion.index.eraseIdx a).length = N - 1
    rw [List.length_eraseIdx]; simp [hi, ha]
  · show (input.largestPossibleRegion.size.eraseIdx a).length = N - 1
    rw [List.length_eraseIdx]; simp [hs, ha]
  · intro j hj
    exact ⟨getElem?_eraseIdx_lt _ a j hj, getElem?_eraseIdx_lt _ a j hj⟩
  · intro j hj _
    have h1 : j - 1 + 1 = j := by omega
    constructor
    · show (input.largestPossibleRegion.index.eraseIdx a)[j - 1]? = _
      rw [getElem?_eraseIdx_ge _ a (j - 1) (by omega), h1]
    · show (input.largestPossibleRegion.size.eraseIdx a)[j - 1]? = _
      rw [getElem?_eraseIdx_ge _ a (j - 1) (by omega), h1]

/-- C2, witness: a `4 x 5 x 6` input gives `4 x 5` frames with frame axis `2`
and `5 x 6` frames with frame axis `0`. -/
theorem GenerateOutputInformation_spatialRegion_witness :
    (3 < 2 ^ 32 ∧ 2 < 3 ∧ (region [0, 0, 0] [4, 5, 6]).WF 3) ∧
    (∃ F, GenerateOutputInformation 3
        ⟨some (positionImage (region [0, 0, 0] [4, 5, 6])), ((2 : Nat) : Int), emptyStream 2⟩ = .ok F ∧
      ∀ f : Nat, F.output.largestPossibleSpatialRegion f = region [0, 0] [4, 5]) ∧
    (∃ F, GenerateOutputInformation 3
        ⟨some (positionImage (region [0, 0, 0] [4, 5, 6])), ((0 : Nat) : Int), emptyStream 2⟩ = .ok F ∧
      ∀ f : Nat, F.output.largestPossibleSpatialRegion f = region [0, 0] [5, 6]) := by
  refine ⟨by decide, ?_, ?_⟩
  · obtain ⟨F, h, hf⟩ := GenerateOutputInformation_spatialRegion 3 2
      (positionImage (region [0, 0, 0] [4, 5, 6])) (emptyStream 2) (by decide) (by decide)
      (by decide)
    exact ⟨F, h, fun f => (hf f).1⟩
  · obtain ⟨F, h, hf⟩ := GenerateOutputInformation_spatialRegion 3 0
      (positionImage (region [0, 0, 0] [4, 5, 6])) (emptyStream 2) (by decide) (by decide)
      (by decide)
    exact ⟨F, h, fun f => (hf f).1⟩

/-- Resolution where the loop bound does not wrap. `GenerateOutputRequestedRegion`
installs the largest possible temporal region as the requested one; when its
end `s + d` is below `2^64`, every frame index `i` of that span whose requested
spatial region has zero extent on every axis has, after the call, its
largest-possible spatial region as requested spatial region. -/
theorem GenerateOutputRequestedRegion_degenerate (N : Nat) (F : ImageToVideoFilter P) (i : Nat)
    (hov : (GenerateOutputRequestedRegion N F).filter.output.requestedTemporalRegion.frameStart +
      (GenerateOutputRequestedRegion N F).filter.output.requestedTemporalRegion.frameDuration
        < 2 ^ 64)
    (h1 : (GenerateOutputRequestedRegion N F).filter.output.requestedTemporalRegion.frameStart ≤ i)
    (h2 : i < (GenerateOutputRequestedRegion N F).filter.output.requestedTemporalRegion.frameStart +
      (GenerateOutputRequestedRegion N F).filter.output.requestedTemporalRegion.frameDuration)
    (hz : ∀ j, j < N - 1 → (F.output.requestedSpatialRegion i).size.getD j 0 = 0) :
    (GenerateOutputRequestedRegion N F).filter.output.requestedTemporalRegion =
      F.output.largestPossibleTemporalRegion ∧
    (GenerateOutputRequestedRegion N F).filter.output.requestedSpatialRegion i =
      (GenerateOutputRequestedRegion N F).filter.output.largestPossibleSpatialRegion i ∧
    (GenerateOutputRequestedRegion N F).filter.output.largestPossibleSpatialRegion i =
      F.output.largestPossibleSpatialRegion i := by
  have hfix := GenerateOutputRequestedRegion_fixed N F
  rw [hfix.2.2.2.1] at hov h1 h2
  refine ⟨hfix.2.2.2.1, ?_, by rw [hfix.2.2.2.2.1]⟩
  rw [GenerateOutputRequestedRegion_requested, hfix.2.2.2.2.1, mod_of_no_overflow _ _ hov,
    if_pos ⟨⟨h1, h2⟩, (validRegion_eq_false_iff _ _).mpr hz⟩]

/-- Resolution where the loop bound does not wrap, at the frame `2` of
`resolutionExample`. -/
theorem GenerateOutputRequestedRegion_degenerate_witness :
    (GenerateOutputRequestedRegion 3 resolutionExample).filter.output.requestedSpatialRegion 2 =
      region [0, 0] [5, 6] := by
  have h := GenerateOutputRequestedRegion_degenerate 3 resolutionExample 2
    (by decide) (by decide) (by decide) (by decide)
  rw [h.2.1, h.2.2]
  rfl

/-- C4, failing input. The input region of index `(-2, 0)` and size `(4, 5)`
with frame axis `0` gives the temporal region `(2^64 - 2, 4)` of `wrapExample`.
The frames `2^64 - 2` and `2^64 - 1` lie in the requested temporal span and
have requested spatial regions of zero extent on every axis, yet
`GenerateOutputRequestedRegion` goes through no frame: the loop bound
`outFrameStart + outFrameDuration` wraps to `2`. After the call the requested
spatial region of both frames is still of size `(0)`, not the largest possible
region of size `(5)`. -/
theorem GenerateOutputRequestedRegion_wrap_failing_input :
    (∃ F, GenerateOutputInformation 2
        ⟨some (positionImage (region [-2, 0] [4, 5])), 0, emptyStream 1⟩ = .ok F ∧
      F.output.largestPossibleTemporalRegion =
        wrapExample.output.largestPossibleTemporalRegion) ∧
    (GenerateOutputRequestedRegion 2 wrapExample).filter.output.requestedTemporalRegion =
      ⟨18446744073709551614, 4⟩ ∧
    (18446744073709551614 ≤ 18446744073709551615 ∧
      18446744073709551615 < 18446744073709551614 + 4) ∧
    (18446744073709551614 + 4) % 2 ^ 64 = 2 ∧
    (∀ j, j < 2 - 1 →
      (wrapExample.output.requestedSpatialRegion 18446744073709551614).size.getD j 0 = 0) ∧
    (∀ j, j < 2 - 1 →
      (wrapExample.output.requestedSpatialRegion 18446744073709551615).size.getD j 0 = 0) ∧
    (GenerateOutputRequestedRegion 2 wrapExample).inspected = [] ∧
    (GenerateOutputRequestedRegion 2 wrapExample).filter.output.requestedSpatialRegion
      18446744073709551614 = region [0] [0] ∧
    (GenerateOutputRequestedRegion 2 wrapExample).filter.output.requestedSpatialRegion
      18446744073709551615 = region [0] [0] ∧
    (GenerateOutputRequestedRegion 2 wrapExample).filter.output.largestPossibleSpatialRegion
      18446744073709551614 = region [0] [5] ∧
    (GenerateOutputRequestedRegion 2 wrapExample).filter.output.largestPossibleSpatialRegion
      18446744073709551615 = region [0] [5] ∧
    (GenerateOutputRequestedRegion 2 wrapExample).filter.output.requestedSpatialRegion
      18446744073709551615 ≠
    (GenerateOutputRequestedRegion 2 wrapExample).filter.output.largestPossibleSpatialRegion
      18446744073709551615 :=
  ⟨⟨_, rfl, by decide⟩, by decide, by decide, by decide, by decide, by decide, by decide,
    by decide, by decide, by decide, by decide, by decide⟩

/-- C5. For every frame index `i` (of the requested temporal span or not) whose
requested spatial region has a non-zero extent on at least one axis, the
requested spatial region of the frame after `GenerateOutputRequestedRegion` is
the one before. -/
theorem GenerateOutputRequestedRegion_specified (N : Nat) (F : ImageToVideoFilter P) (i : Nat)
    (hnz : ∃ j, j < N - 1 ∧ (F.output.requestedSpatialRegion i).size.getD j 0 ≠ 0) :
    (GenerateOutputRequestedRegion N F).filter.output.requestedSpatialRegion i =
      F.output.requestedSpatialRegion i := by
  rw [GenerateOutputRequestedRegion_requested]
  have hv := (validRegion_eq_true_iff (N - 1) (F.output.requestedSpatialRegion i)).mpr hnz
  rw [if_neg]
  rintro ⟨_, hf⟩
  rw [hv] at hf
  exact Bool.noConfusion hf

/-- C5, witness: the frame `1` of `resolutionExample`, whose requested spatial
region mixes a zero and a non-zero extent. -/
theorem GenerateOutputRequestedRegion_specified_witness :
    (∃ j, j < 3 - 1 ∧ (resolutionExample.output.requestedSpatialRegion 1).size.getD j 0 ≠ 0) ∧
    (GenerateOutputRequestedRegion 3 resolutionExample).filter.output.requestedSpatialRegion 1 =
      region [0, 0] [0, 3] :=
  ⟨⟨1, by decide, by decide⟩,
    GenerateOutputRequestedRegion_specified 3 resolutionExample 1 ⟨1, by decide, by decide⟩⟩

/-- C6 (as amended). `GenerateOutputRequestedRegion` leaves the input, the frame
axis, the largest possible regions and the frame data as they were, sets the
requested temporal region to the largest possible temporal region `(s, d)`
whatever it was before, and goes through exactly the frames
`s ≤ i < (s + d) mod 2^64`, in increasing order. -/
theorem GenerateOutputRequestedRegion_frame_effect (N : Nat) (F : ImageToVideoFilter P) :
    (GenerateOutputRequestedRegion N F).filter.output.requestedTemporalRegion =
      F.output.largestPossibleTemporalRegion ∧
    (GenerateOutputRequestedRegion N F).inspected =
      List.range' F.output.largestPossibleTemporalRegion.frameStart
        ((F.output.largestPossibleTemporalRegion.frameStart +
            F.output.largestPossibleTemporalRegion.frameDuration) % 2 ^ 64 -
          F.output.largestPossibleTemporalRegion.frameStart) ∧
    (GenerateOutputRequestedRegion N F).filter.input = F.input ∧
    (GenerateOutputRequestedRegion N F).filter.m_FrameAxis = F.m_FrameAxis ∧
    (GenerateOutputRequestedRegion N F).filter.output.largestPossibleTemporalRegion =
      F.output.largestPossibleTemporalRegion ∧
    (GenerateOutputRequestedRegion N F).filter.output.largestPossibleSpatialRegion =
      F.output.largestPossibleSpatialRegion ∧
    (GenerateOutputRequestedRegion N F).filter.output.frame = F.output.frame := by
  have hfix := GenerateOutputRequestedRegion_fixed N F
  exact ⟨hfix.2.2.2.1, GenerateOutputRequestedRegion_inspected N F, hfix.1, hfix.2.1,
    hfix.2.2.1, hfix.2.2.2.2.1, hfix.2.2.2.2.2⟩

/-- C6, counterexample: the consumer of `resolutionExample` had requested the
span `(1, 2)` of the largest possible span `(0, 4)`; after
`GenerateOutputRequestedRegion` the requested temporal region is `(0, 4)` and
the frames gone through are `0, 1, 2, 3`, not `1, 2`. -/
theorem GenerateOutputRequestedRegion_frame_effect_counterexample :
    resolutionExample.output.requestedTemporalRegion = ⟨1, 2⟩ ∧
    (GenerateOutputRequestedRegion 3 resolutionExample).filter.output.requestedTemporalRegion =
      ⟨0, 4⟩ ∧
    (GenerateOutputRequestedRegion 3 resolutionExample).filter.output.requestedTemporalRegion ≠
      resolutionExample.output.requestedTemporalRegion ∧
    (GenerateOutputRequestedRegion 3 resolutionExample).inspected = [0, 1, 2, 3] := by
  decide

/-- C7. For every connected input, frame axis and output stream (whatever
temporal and spatial regions are requested on it), after
`GenerateInputRequestedRegion` the requested region of the input is its
largest possible region, its largest possible region and pixels are unchanged,
and so are the frame axis and the output stream. -/
theorem GenerateInputRequestedRegion_whole_input (input : Image P) (axis : Int)
    (out : VideoStream P) :
    ∃ F input',
      GenerateInputRequestedRegion (⟨some input, axis, out⟩ : ImageToVideoFilter P) = .ok F ∧
      F.input = some input' ∧
      input'.requestedRegion = input.largestPossibleRegion ∧
      input'.largestPossibleRegion = input.largestPossibleRegion ∧
      input'.pixel = input.pixel ∧
      F.m_FrameAxis = axis ∧ F.output = out :=
  ⟨_, _, rfl, rfl, rfl, rfl, rfl, rfl, rfl⟩

/-- C8 (as amended). For a connected input and a requested temporal region
`(s, d)` with `s + d < 2^64`, the frame indices that `GenerateData` grafts are,
in increasing order and once each, the indices `s, s + 1, ...` up to the first
one at which the body of the loop fails; every one of them lies in
`[s, s + d)` and holds data afterwards, and every other frame is left as it
was. When the body fails at no index of the span, the indices grafted are
exactly `s, ..., s + d - 1` and the pass ends without a failure. -/
theorem GenerateData_written (extract : Image P → ImageRegion → Except Failure (Image P))
    (F : ImageToVideoFilter P) (input : Image P) (hF : F.input = some input)
    (hov : F.output.requestedTemporalRegion.frameStart +
      F.output.requestedTemporalRegion.frameDuration < 2 ^ 64) :
    (GenerateData extract F).written =
      (List.range' F.output.requestedTemporalRegion.frameStart
        F.output.requestedTemporalRegion.frameDuration).takeWhile
          (frameOk extract input input.largestPossibleRegion F.m_FrameAxis) ∧
    (∀ k, k ∈ (GenerateData extract F).written →
      F.output.requestedTemporalRegion.frameStart ≤ k ∧
      k < F.output.requestedTemporalRegion.frameStart +
        F.output.requestedTemporalRegion.frameDuration ∧
      ((GenerateData extract F).filter.output.frame k).isSome = true) ∧
    (∀ k, k ∉ (GenerateData extract F).written →
      (GenerateData extract F).filter.output.frame k = F.output.frame k) ∧
    ((∀ k, F.output.requestedTemporalRegion.frameStart ≤ k →
        k < F.output.requestedTemporalRegion.frameStart +
          F.output.requestedTemporalRegion.frameDuration →
        frameOk extract input input.largestPossibleRegion F.m_FrameAxis k = true) →
      (GenerateData extract F).written =
        List.range' F.output.requestedTemporalRegion.frameStart
          F.output.requestedTemporalRegion.frameDuration ∧
      (GenerateData extract F).failure = none) := by
  have hrun := GenerateData_eq_run_of_no_overflow extract F input hF hov
  have hw : (GenerateData extract F).written =
      (List.range' F.output.requestedTemporalRegion.frameStart
        F.output.requestedTemporalRegion.frameDuration).takeWhile
          (frameOk extract input input.largestPossibleRegion F.m_FrameAxis) := by
    rw [hrun, dataRun_written]; rfl
  have hfr : ∀ k, (GenerateData extract F).filter.output.frame k =
      if k ∈ (GenerateData extract F).written then
        (match extractFrame extract input input.largestPossibleRegion F.m_FrameAxis k with
          | .ok image => some image
          | .error _ => none)
      else F.output.frame k := by
    intro k
    rw [hw, hrun, dataRun_frame]
  refine ⟨hw, ?_, ?_, ?_⟩
  · intro k hk
    have hk' := hk
    rw [hw] at hk'
    have hr := takeWhile_subset_range _ _ _ _ hk'
    have hok := List.mem_takeWhile_imp hk'
    obtain ⟨image, hx⟩ := (frameOk_iff _ _ _ _ _).mp hok
    refine ⟨hr.1, hr.2, ?_⟩
    rw [hfr k, if_pos hk, hx]
    rfl
  · intro k hk
    rw [hfr k, if_neg hk]
  · intro hall
    have hall' : ∀ k ∈ List.range' F.output.requestedTemporalRegion.frameStart
        F.output.requestedTemporalRegion.frameDuration,
        frameOk extract input input.largestPossibleRegion F.m_FrameAxis k = true := by
      intro k hk
      have := List.mem_range'_1.mp hk
      exact hall k this.1 this.2
    constructor
    · rw [hw]
      exact List.takeWhile_eq_self_iff.mpr hall'
    · rw [hrun, dataRun_failure_none _ _ _ _ _ _ hall']

/-- C8, witness: the frames `1, 2` requested of a `4 x 5 x 6` input with frame
axis `0` are grafted in this order. -/
theorem GenerateData_written_witness :
    (GenerateData (ExtractImageFilter 0) resolutionExample).written = [1, 2] := by
  have h := (GenerateData_written (ExtractImageFilter 0) resolutionExample
    (positionImage (region [0, 0, 0] [4, 5, 6])) rfl (by decide)).1
  rw [h]
  decide

/-- C8, counterexample: for the requested temporal region `(2, 5)` on a
`4 x 5 x 6` input with frame axis `0`, where `2 + 5` does not overflow, the
frames grafted are `2, 3`, not `2, 3, 4, 5, 6`: the projection step fails at
the frame `4`. -/
theorem GenerateData_written_counterexample :
    outOfRangeExample.output.requestedTemporalRegion = ⟨2, 5⟩ ∧
    (GenerateData (ExtractImageFilter 0) outOfRangeExample).written = [2, 3] ∧
    (GenerateData (ExtractImageFilter 0) outOfRangeExample).written ≠ [2, 3, 4, 5, 6] ∧
    (GenerateData (ExtractImageFilter 0) outOfRangeExample).failure =
      some Failure.regionOutOfBounds ∧
    ((GenerateData (ExtractImageFilter 0) outOfRangeExample).filter.output.frame 4).isSome =
      false := by
  decide

/-- C9 (as amended). For an input of dimension `N`, a frame axis `a < N` and a
requested temporal region `(s, d)` with `s + d < 2^64` that contains a frame
index outside the extent of the input on axis `a`, `GenerateData` over the
modelled projection step fails with the region-out-of-bounds error at the first
such index `f`: the frames `s, ..., f - 1` before it have been populated, and
the frame `f` and every other frame are left as they were. -/
theorem GenerateData_out_of_range (N a : Nat) (input : Image P) (out : VideoStream P)
    (hN : N < 2 ^ 32) (ha : a < N) (hR : input.largestPossibleRegion.WF N)
    (hov : out.requestedTemporalRegion.frameStart + out.requestedTemporalRegion.frameDuration
      < 2 ^ 64)
    (hout : ∃ k, out.requestedTemporalRegion.frameStart ≤ k ∧
      k < out.requestedTemporalRegion.frameStart + out.requestedTemporalRegion.frameDuration ∧
      ¬ inExtent input.largestPossibleRegion a k) :
    (GenerateData (ExtractImageFilter a) ⟨some input, (a : Int), out⟩).failure =
      some Failure.regionOutOfBounds ∧
    ∃ f, out.requestedTemporalRegion.frameStart ≤ f ∧
      f < out.requestedTemporalRegion.frameStart + out.requestedTemporalRegion.frameDuration ∧
      ¬ inExtent input.largestPossibleRegion a f ∧
      (GenerateData (ExtractImageFilter a) ⟨some input, (a : Int), out⟩).written =
        List.range' out.requestedTemporalRegion.frameStart
          (f - out.requestedTemporalRegion.frameStart) ∧
      (∀ k, out.requestedTemporalRegion.frameStart ≤ k → k < f →
        inExtent input.largestPossibleRegion a k ∧
        (GenerateData (ExtractImageFilter a) ⟨some input, (a : Int), out⟩).filter.output.frame k =
          some (sliceImage input a k)) ∧
      (∀ k, ¬ (out.requestedTemporalRegion.frameStart ≤ k ∧ k < f) →
        (GenerateData (ExtractImageFilter a) ⟨some input, (a : Int), out⟩).filter.output.frame k =
          out.frame k) := by
  obtain ⟨hi, hs, _, _⟩ := hR
  have ha64 : a < 2 ^ 64 := by omega
  have hai : a < input.largestPossibleRegion.index.length := by omega
  have has : a < input.largestPossibleRegion.size.length := by omega
  have hrun := GenerateData_eq_run_of_no_overflow (ExtractImageFilter a)
    (⟨some input, (a : Int), out⟩ : ImageToVideoFilter P) input rfl hov
  obtain ⟨k0, hk1, hk2, hk3⟩ := hout
  have hbad : frameOk (ExtractImageFilter a) input input.largestPossibleRegion (a : Int) k0 =
      false := by
    rw [frameOk_model input a k0 ha64 hai has]
    exact decide_eq_false hk3
  obtain ⟨f, e, hf1, hf2, hf3, hf4, hf5, hf6⟩ :=
    dataRun_range_failure (ExtractImageFilter a) input input.largestPossibleRegion (a : Int)
      out.requestedTemporalRegion.frameDuration out.requestedTemporalRegion.frameStart
      ⟨⟨some input, (a : Int), out⟩, [], none⟩ ⟨k0, hk1, hk2, hbad⟩
  have hfe : ¬ inExtent input.largestPossibleRegion a f ∧ e = Failure.regionOutOfBounds := by
    rw [extractFrame_model input a f ha64 hai has] at hf3
    by_cases h : inExtent input.largestPossibleRegion a f
    · rw [if_pos h] at hf3
      exact Except.noConfusion hf3
    · rw [if_neg h] at hf3
      exact ⟨h, (Except.error.inj hf3).symm⟩
  have hmem : ∀ k, k ∈ List.range' out.requestedTemporalRegion.frameStart
      (f - out.requestedTemporalRegion.frameStart) ↔
      (out.requestedTemporalRegion.frameStart ≤ k ∧ k < f) := by
    intro k
    rw [List.mem_range'_1]
    constructor <;> rintro ⟨h1, h2⟩ <;> exact ⟨h1, by omega⟩
  refine ⟨?_, f, hf1, hf2, hfe.1, ?_, ?_, ?_⟩
  · rw [hrun, hf6, hfe.2]
  · rw [hrun, dataRun_written, hf5]
    rfl
  · intro k h1 h2
    have hok := hf4 k h1 h2
    rw [frameOk_model input a k ha64 hai has] at hok
    have hke : inExtent input.largestPossibleRegion a k := of_decide_eq_true hok
    refine ⟨hke, ?_⟩
    rw [hrun, dataRun_frame, hf5, if_pos ((hmem k).mpr ⟨h1, h2⟩),
      extractFrame_model input a k ha64 hai has, if_pos hke]
  · intro k hk
    rw [hrun, dataRun_frame, hf5, if_neg (fun h => hk ((hmem k).mp h))]

/-- C9, witness: the requested temporal region `(2, 5)` on a `4 x 5 x 6` input
with frame axis `0`. -/
theorem GenerateData_out_of_range_witness :
    (GenerateData (ExtractImageFilter 0)
      ⟨some (positionImage (region [0, 0, 0] [4, 5, 6])), ((0 : Nat) : Int),
        { emptyStream 2 with requestedTemporalRegion := ⟨2, 5⟩ }⟩).failure =
      some Failure.regionOutOfBounds :=
  (GenerateData_out_of_range 3 0 (positionImage (region [0, 0, 0] [4, 5, 6]))
    { emptyStream 2 with requestedTemporalRegion := ⟨2, 5⟩ }
    (by decide) (by decide) (by decide) (by decide) ⟨4, by decide, by decide, by decide⟩).1

/-- C9, counterexample. For the requested temporal region `(2, 5)`, which
exceeds the extent `[0, 4)` of the input on the frame axis, `GenerateData`
fails with the region-out-of-bounds error, and the frames `2` and `3` of the
requested span, which held no data before, are populated. For the requested
temporal region `(2^64 - 1, 2)`, which exceeds that extent as well,
`GenerateData` ends without a failure. -/
theorem GenerateData_out_of_range_counterexample :
    ((GenerateData (ExtractImageFilter 0) outOfRangeExample).failure =
        some Failure.regionOutOfBounds ∧
      (outOfRangeExample.output.frame 2).isSome = false ∧
      (outOfRangeExample.output.frame 3).isSome = false ∧
      ((GenerateData (ExtractImageFilter 0) outOfRangeExample).filter.output.frame 2).isSome =
        true ∧
      ((GenerateData (ExtractImageFilter 0) outOfRangeExample).filter.output.frame 3).isSome =
        true) ∧
    (GenerateData (ExtractImageFilter 0)
      ⟨some (positionImage (region [0, 0, 0] [4, 5, 6])), 0,
        { emptyStream 2 with
          largestPossibleTemporalRegion := ⟨0, 4⟩
          requestedTemporalRegion := ⟨18446744073709551615, 2⟩ }⟩).failure = none := by
  decide

/-- C10 (as amended). After `GenerateOutputRequestedRegion`, whose requested
temporal region `(s, d)` has `s + d < 2^64`, every frame `i` of that span whose
largest-possible spatial region has a positive extent on at least one axis has
a requested spatial region with a positive extent on at least one axis. -/
theorem GenerateOutputRequestedRegion_nondegenerate (N : Nat) (F : ImageToVideoFilter P)
    (i : Nat)
    (hov : (GenerateOutputRequestedRegion N F).filter.output.requestedTemporalRegion.frameStart +
      (GenerateOutputRequestedRegion N F).filter.output.requestedTemporalRegion.frameDuration
        < 2 ^ 64)
    (h1 : (GenerateOutputRequestedRegion N F).filter.output.requestedTemporalRegion.frameStart ≤ i)
    (h2 : i < (GenerateOutputRequestedRegion N F).filter.output.requestedTemporalRegion.frameStart +
      (GenerateOutputRequestedRegion N F).filter.output.requestedTemporalRegion.frameDuration)
    (hL : ∃ j, j < N - 1 ∧
      0 < ((GenerateOutputRequestedRegion N F).filter.output.largestPossibleSpatialRegion i).size.getD
        j 0) :
    ∃ j, j < N - 1 ∧
      0 < ((GenerateOutputRequestedRegion N F).filter.output.requestedSpatialRegion i).size.getD
        j 0 := by
  have hfix := GenerateOutputRequestedRegion_fixed N F
  rw [hfix.2.2.2.1] at hov h1 h2
  rw [hfix.2.2.2.2.1] at hL
  rw [GenerateOutputRequestedRegion_requested, mod_of_no_overflow _ _ hov]
  cases hv : validRegion (N - 1) (F.output.requestedSpatialRegion i)
  · rw [if_pos ⟨⟨h1, h2⟩, rfl⟩]
    exact hL
  · rw [if_neg (by simp)]
    obtain ⟨j, hj, hne⟩ := (validRegion_eq_true_iff _ _).mp hv
    exact ⟨j, hj, Nat.pos_of_ne_zero hne⟩

/-- C10, witness: the frame `2` of `resolutionExample`. -/
theorem GenerateOutputRequestedRegion_nondegenerate_witness :
    ∃ j, j < 3 - 1 ∧
      0 < ((GenerateOutputRequestedRegion 3 resolutionExample).filter.output.requestedSpatialRegion
        2).size.getD j 0 :=
  GenerateOutputRequestedRegion_nondegenerate 3 resolutionExample 2
    (by decide) (by decide) (by decide) ⟨0, by decide, by decide⟩

/-- C10, counterexample. For the input region of index `(0, 0)` and size
`(4, 0)` with frame axis `0`, run in pipeline order, the frame `0` lies in the
requested temporal region `(0, 4)` and its requested spatial region after
`GenerateOutputRequestedRegion` has the size `(0)`: no positive extent. For the
input region of index `(-2, 0)` and size `(4, 5)` the frame `2^64 - 1` lies in
the requested temporal region `(2^64 - 2, 4)` and its requested spatial region
after `GenerateOutputRequestedRegion` has the size `(0)` as well. -/
theorem GenerateOutputRequestedRegion_nondegenerate_counterexample :
    (∃ F, GenerateOutputInformation 2
        ⟨some (positionImage (region [0, 0] [4, 0])), 0, emptyStream 1⟩ = .ok F ∧
      (GenerateOutputRequestedRegion 2 F).filter.output.requestedTemporalRegion = ⟨0, 4⟩ ∧
      (GenerateOutputRequestedRegion 2 F).filter.output.requestedSpatialRegion 0 =
        region [0] [0] ∧
      ¬ ∃ j, j < 2 - 1 ∧
        0 < ((GenerateOutputRequestedRegion 2 F).filter.output.requestedSpatialRegion 0).size.getD
          j 0) ∧
    (∃ F, GenerateOutputInformation 2
        ⟨some (positionImage (region [-2, 0] [4, 5])), 0, emptyStream 1⟩ = .ok F ∧
      (GenerateOutputRequestedRegion 2 F).filter.output.requestedTemporalRegion =
        ⟨18446744073709551614, 4⟩ ∧
      (18446744073709551614 ≤ 18446744073709551615 ∧
        18446744073709551615 < 18446744073709551614 + 4) ∧
      ¬ ∃ j, j < 2 - 1 ∧
        0 < ((GenerateOutputRequestedRegion 2 F).filter.output.requestedSpatialRegion
          18446744073709551615).size.getD j 0) :=
  ⟨⟨_, rfl, by decide, by decide, by decide⟩, ⟨_, rfl, by decide, by decide, by decide⟩⟩

/-! ## Failures of `GenerateOutputInformation` -/

theorem toSizeValue_outside (N : Nat) (a : Int) (hN : N < 2 ^ 32)
    (ha : -(2 ^ 63 : Int) ≤ a ∧ a < 2 ^ 63) (hout : a < 0 ∨ (N : Int) ≤ a) :
    N ≤ toSizeValue a := by
  unfold toSizeValue SizeValueModulus
  omega

theorem ImageRegion.GetIndex_of_le (R : ImageRegion) (i : Nat) (h : R.index.length ≤ i) :
    R.GetIndex i = .error .outOfBoundsAccess := by
  simp [ImageRegion.GetIndex, List.getElem?_eq_none h]

theorem ImageRegion.GetIndex_error (R : ImageRegion) (i : Nat) (e : Failure)
    (h : R.GetIndex i = .error e) : e = .outOfBoundsAccess := by
  unfold ImageRegion.GetIndex at h
  cases hv : R.index[i]? with
  | none => rw [hv] at h; exact (Except.error.inj h).symm
  | some v => rw [hv] at h; exact Except.noConfusion h

theorem ImageRegion.GetSize_error (R : ImageRegion) (i : Nat) (e : Failure)
    (h : R.GetSize i = .error e) : e = .outOfBoundsAccess := by
  unfold ImageRegion.GetSize at h
  cases hv : R.size[i]? with
  | none => rw [hv] at h; exact (Except.error.inj h).symm
  | some v => rw [hv] at h; exact Except.noConfusion h

theorem ImageRegion.SetIndex_error (R : ImageRegion) (i : Nat) (v : Int) (e : Failure)
    (h : R.SetIndex i v = .error e) : e = .outOfBoundsAccess := by
  unfold ImageRegion.SetIndex at h
  by_cases hi : i < R.index.length
  · rw [if_pos hi] at h; exact Except.noConfusion h
  · rw [if_neg hi] at h; exact (Except.error.inj h).symm

theorem ImageRegion.SetSize_error (R : ImageRegion) (i : Nat) (v : Nat) (e : Failure)
    (h : R.SetSize i v = .error e) : e = .outOfBoundsAccess := by
  unfold ImageRegion.SetSize at h
  by_cases hi : i < R.size.length
  · rw [if_pos hi] at h; exact Except.noConfusion h
  · rw [if_neg hi] at h; exact (Except.error.inj h).symm

theorem axisLoopBody_error (R : ImageRegion) (axis : Int) (st : AxisLoopState) (idx : Nat)
    (e : Failure) (h : axisLoopBody R axis st idx = .error e) : e = .outOfBoundsAccess := by
  unfold axisLoopBody at h
  by_cases hne : (idx : Int) ≠ axis
  · rw [if_pos hne] at h
    simp only [bind, Except.bind, pure, Except.pure] at h
    cases h1 : R.GetSize idx with
    | error e1 =>
      rw [h1] at h
      rw [← Except.error.inj h]; exact ImageRegion.GetSize_error R idx e1 h1
    | ok axisSize =>
      rw [h1] at h
      simp only [] at h
      cases h2 : R.GetIndex idx with
      | error e2 =>
        rw [h2] at h
        rw [← Except.error.inj h]; exact ImageRegion.GetIndex_error R idx e2 h2
      | ok axisStart =>
        rw [h2] at h
        simp only [] at h
        cases h3 : st.outputSpatialRegion.SetSize st.outputIdx axisSize with
        | error e3 =>
          rw [h3] at h
          rw [← Except.error.inj h]; exact ImageRegion.SetSize_error _ _ _ e3 h3
        | ok r1 =>
          rw [h3] at h
          simp only [] at h
          cases h4 : r1.SetIndex st.outputIdx axisStart with
          | error e4 =>
            rw [h4] at h
            rw [← Except.error.inj h]; exact ImageRegion.SetIndex_error _ _ _ e4 h4
          | ok r2 =>
            rw [h4] at h
            exact Except.noConfusion h
  · rw [if_neg hne] at h
    exact Except.noConfusion h

theorem axisLoop_fold_error (R : ImageRegion) (axis : Int) :
    ∀ (l : List Nat) (st : AxisLoopState) (e : Failure),
      l.foldlM (axisLoopBody R axis) st = .error e → e = .outOfBoundsAccess
  | [], st, e, h => by simp [pure, Except.pure] at h
  | idx :: rest, st, e, h => by
    rw [List.foldlM_cons] at h
    cases hb : axisLoopBody R axis st idx with
    | error e' =>
      rw [hb] at h
      simp only [bind, Except.bind] at h
      rw [← Except.error.inj h]
      exact axisLoopBody_error R axis st idx e' hb
    | ok st' =>
      rw [hb] at h
      simp only [bind, Except.bind] at h
      exact axisLoop_fold_error R axis rest st' e h

/-- A failure of `GenerateOutputInformation` is an access outside a fixed array
or the dereference of a null input. -/
theorem GenerateOutputInformation_error (N : Nat) (F : ImageToVideoFilter P) (e : Failure)
    (h : GenerateOutputInformation N F = .error e) :
    e = .outOfBoundsAccess ∨ e = .nullDereference := by
  unfold GenerateOutputInformation GetInput at h
  cases hin : F.input with
  | none =>
    rw [hin] at h
    exact Or.inr (Except.error.inj h).symm
  | some input =>
    rw [hin] at h
    left
    simp only [bind, Except.bind, pure, Except.pure] at h
    cases h1 : input.largestPossibleRegion.GetIndex (toSizeValue F.m_FrameAxis) with
    | error e1 =>
      rw [h1] at h
      rw [← Except.error.inj h]; exact ImageRegion.GetIndex_error _ _ e1 h1
    | ok start =>
      rw [h1] at h
      simp only [] at h
      cases h2 : input.largestPossibleRegion.GetSize (toSizeValue F.m_FrameAxis) with
      | error e2 =>
        rw [h2] at h
        rw [← Except.error.inj h]; exact ImageRegion.GetSize_error _ _ e2 h2
      | ok duration =>
        rw [h2] at h
        simp only [] at h
        cases h3 : axisLoop N input.largestPossibleRegion F.m_FrameAxis with
        | error e3 =>
          rw [h3] at h
          rw [← Except.error.inj h]; exact axisLoop_fold_error _ _ _ _ e3 h3
        | ok st =>
          rw [h3] at h
          exact Except.noConfusion h

/-! ## Claims on metadata derivation -/

/-- C11. For every input region of dimension `N`, frame axis `a < N` and output
stream, whatever requested region the stream carried before, after
`GenerateOutputInformation` the requested temporal region of the stream is its
largest-possible temporal region, the one derived from the input. -/
theorem GenerateOutputInformation_requested (N a : Nat) (input : Image P)
    (out : VideoStream P) (hN : N < 2 ^ 32) (ha : a < N)
    (hR : input.largestPossibleRegion.WF N) :
    ∃ F, GenerateOutputInformation N ⟨some input, (a : Int), out⟩ = .ok F ∧
      F.output.requestedTemporalRegion = F.output.largestPossibleTemporalRegion ∧
      F.output.largestPossibleTemporalRegion =
        ⟨toSizeValue (input.largestPossibleRegion.index.getD a 0),
          input.largestPossibleRegion.size.getD a 0⟩ :=
  ⟨_, GenerateOutputInformation_eq N a input out hN ha hR.1 hR.2.1, rfl, rfl⟩

/-- C11, witness: the stream of `resolutionExample` carries the requested
temporal region `(1, 2)`; after `GenerateOutputInformation` on the `4 x 5 x 6`
input with frame axis `0` it carries `(0, 4)`. -/
theorem GenerateOutputInformation_requested_witness :
    resolutionExample.output.requestedTemporalRegion = ⟨1, 2⟩ ∧
    ∃ F, GenerateOutputInformation 3
        ⟨some (positionImage (region [0, 0, 0] [4, 5, 6])), ((0 : Nat) : Int),
          resolutionExample.output⟩ = .ok F ∧
      F.output.requestedTemporalRegion = ⟨0, 4⟩ := by
  refine ⟨rfl, ?_⟩
  obtain ⟨F, h, h1, h2⟩ := GenerateOutputInformation_requested 3 0
    (positionImage (region [0, 0, 0] [4, 5, 6])) resolutionExample.output
    (by decide) (by decide) (by decide)
  refine ⟨F, h, ?_⟩
  rw [h1, h2]
  decide

/-- C12 (as amended). The filter has no check of the frame axis: `SetFrameAxis`
stores every value and changes nothing else, and for an input region of
dimension `N` and a frame axis `a` outside `[0, N)` `GenerateOutputInformation`
raises no invalid-axis error: its first read of the input region at the axis
`a` is an access outside the arrays of the region, and it returns no output
stream. -/
theorem GenerateOutputInformation_axis_unchecked (N : Nat) (a : Int)
    (F : ImageToVideoFilter P) (input : Image P) (hF : F.input = some input)
    (hN : N < 2 ^ 32) (hR : input.largestPossibleRegion.WF N)
    (ha : -(2 ^ 63 : Int) ≤ a ∧ a < 2 ^ 63) (hout : a < 0 ∨ (N : Int) ≤ a) :
    (F.SetFrameAxis a).m_FrameAxis = a ∧
    (F.SetFrameAxis a).input = F.input ∧
    (F.SetFrameAxis a).output = F.output ∧
    GenerateOutputInformation N (F.SetFrameAxis a) = .error .outOfBoundsAccess ∧
    GenerateOutputInformation N (F.SetFrameAxis a) ≠ .error .invalidAxis := by
  have hge := toSizeValue_outside N a hN ha hout
  have hidx : input.largestPossibleRegion.GetIndex (toSizeValue a) =
      .error .outOfBoundsAccess :=
    ImageRegion.GetIndex_of_le _ _ (by rw [hR.1]; exact hge)
  have hres : GenerateOutputInformation N (F.SetFrameAxis a) = .error .outOfBoundsAccess := by
    simp only [GenerateOutputInformation, GetInput, SetFrameAxis, hF, hidx, bind, Except.bind]
  refine ⟨rfl, rfl, rfl, hres, ?_⟩
  rw [hres]
  intro h
  exact Failure.noConfusion (Except.error.inj h)

/-- C12, witness: the frame axis `3` on a `4 x 5 x 6` input. -/
theorem GenerateOutputInformation_axis_unchecked_witness :
    GenerateOutputInformation 3 (resolutionExample.SetFrameAxis 3) =
      .error .outOfBoundsAccess :=
  (GenerateOutputInformation_axis_unchecked 3 3 resolutionExample
    (positionImage (region [0, 0, 0] [4, 5, 6])) rfl (by decide) (by decide)
    (by decide) (by decide)).2.2.2.1

/-- C12, counterexample: on a `4 x 5 x 6` input `SetFrameAxis` stores the axes
`3` and `-1`, and `GenerateOutputInformation` then ends in an access outside
the arrays of the input region, not in an invalid-axis error. -/
theorem GenerateOutputInformation_axis_counterexample :
    (resolutionExample.SetFrameAxis 3).m_FrameAxis = 3 ∧
    (resolutionExample.SetFrameAxis (-1)).m_FrameAxis = -1 ∧
    GenerateOutputInformation 3 (resolutionExample.SetFrameAxis 3) =
      .error .outOfBoundsAccess ∧
    GenerateOutputInformation 3 (resolutionExample.SetFrameAxis (-1)) =
      .error .outOfBoundsAccess ∧
    GenerateOutputInformation 3 (resolutionExample.SetFrameAxis 3) ≠ .error .invalidAxis ∧
    GenerateOutputInformation 3 (resolutionExample.SetFrameAxis (-1)) ≠ .error .invalidAxis := by
  have h3 : GenerateOutputInformation 3 (resolutionExample.SetFrameAxis 3) =
      .error .outOfBoundsAccess := rfl
  have hm : GenerateOutputInformation 3 (resolutionExample.SetFrameAxis (-1)) =
      .error .outOfBoundsAccess := rfl
  refine ⟨rfl, rfl, h3, hm, ?_, ?_⟩
  · rw [h3]; intro h; exact Failure.noConfusion (Except.error.inj h)
  · rw [hm]; intro h; exact Failure.noConfusion (Except.error.inj h)

/-- C13. For every input region of dimension `N`, frame axis `a < N` and output
stream, `GenerateOutputInformation` run on its own result returns this result
again: the same largest-possible temporal region, the same per-frame
largest-possible spatial regions and the same requested regions as after one
run. -/
theorem GenerateOutputInformation_idempotent (N a : Nat) (input : Image P)
    (out : VideoStream P) (hN : N < 2 ^ 32) (ha : a < N)
    (hR : input.largestPossibleRegion.WF N) :
    ∃ F, GenerateOutputInformation N ⟨some input, (a : Int), out⟩ = .ok F ∧
      ∃ G, GenerateOutputInformation N F = .ok G ∧
        G.output.largestPossibleTemporalRegion = F.output.largestPossibleTemporalRegion ∧
        G.output.largestPossibleSpatialRegion = F.output.largestPossibleSpatialRegion ∧
        G.output.requestedTemporalRegion = F.output.requestedTemporalRegion ∧
        G.output.requestedSpatialRegion = F.output.requestedSpatialRegion ∧
        G.output.frame = F.output.frame ∧
        G.input = F.input ∧ G.m_FrameAxis = F.m_FrameAxis :=
  ⟨_, GenerateOutputInformation_eq N a input out hN ha hR.1 hR.2.1,
    _, GenerateOutputInformation_eq N a input _ hN ha hR.1 hR.2.1,
    rfl, rfl, rfl, rfl, rfl, rfl, rfl⟩

/-- C13, witness: the `4 x 5 x 6` input with frame axis `0`, run twice. -/
theorem GenerateOutputInformation_idempotent_witness :
    ∃ F, GenerateOutputInformation 3
        ⟨some (positionImage (region [0, 0, 0] [4, 5, 6])), ((0 : Nat) : Int),
          emptyStream 2⟩ = .ok F ∧
      ∃ G, GenerateOutputInformation 3 F = .ok G ∧
        G.output.largestPossibleTemporalRegion = ⟨0, 4⟩ ∧
        F.output.largestPossibleTemporalRegion = ⟨0, 4⟩ := by
  obtain ⟨F, hF, G, hG, h1, _⟩ := GenerateOutputInformation_idempotent 3 0
    (positionImage (region [0, 0, 0] [4, 5, 6])) (emptyStream 2)
    (by decide) (by decide) (by decide)
  have hF' : F.output.largestPossibleTemporalRegion = ⟨0, 4⟩ := by
    have h0 : GenerateOutputInformation 3
        ⟨some (positionImage (region [0, 0, 0] [4, 5, 6])), ((0 : Nat) : Int),
          emptyStream 2⟩ = .ok ⟨some (positionImage (region [0, 0, 0] [4, 5, 6])), 0,
            derivedOutput (region [0, 0, 0] [4, 5, 6]) 0 (emptyStream 2)⟩ := rfl
    rw [h0] at hF
    rw [← Except.ok.inj hF]
    decide
  exact ⟨F, hF, G, hG, by rw [h1, hF'], hF'⟩

/-- C14 (as amended). When no input is connected, `GenerateOutputInformation`
raises no invalid-input error: it dereferences the null pointer that `GetInput`
returns, before any statement that writes to the output stream, and returns no
output stream. -/
theorem GenerateOutputInformation_no_input (N : Nat) (axis : Int) (out : VideoStream P) :
    (⟨none, axis, out⟩ : ImageToVideoFilter P).GetInput = none ∧
    GenerateOutputInformation N (⟨none, axis, out⟩ : ImageToVideoFilter P) =
      .error .nullDereference ∧
    GenerateOutputInformation N (⟨none, axis, out⟩ : ImageToVideoFilter P) ≠
      .error .invalidInput := by
  refine ⟨rfl, rfl, ?_⟩
  intro h
  have h' : (Except.error Failure.nullDereference : Except Failure (ImageToVideoFilter P)) =
      .error .invalidInput := h
  exact Failure.noConfusion (Except.error.inj h')

/-- C14, counterexample: with no input connected and frame axis `0`,
`GenerateOutputInformation` ends in the dereference of a null pointer, not in
an invalid-input error. -/
theorem GenerateOutputInformation_no_input_counterexample :
    GenerateOutputInformation 3
      (⟨none, 0, emptyStream 2⟩ : ImageToVideoFilter (List Int)) = .error .nullDereference ∧
    GenerateOutputInformation 3
      (⟨none, 0, emptyStream 2⟩ : ImageToVideoFilter (List Int)) ≠ .error .invalidInput := by
  refine ⟨rfl, ?_⟩
  intro h
  have h' : (Except.error Failure.nullDereference :
      Except Failure (ImageToVideoFilter (List Int))) = .error .invalidInput := h
  exact Failure.noConfusion (Except.error.inj h')

/-! ## Equality of stream states -/

theorem VideoStream.eq_of_stream_fields (v w : VideoStream P)
    (h1 : v.largestPossibleTemporalRegion = w.largestPossibleTemporalRegion)
    (h2 : v.requestedTemporalRegion = w.requestedTemporalRegion)
    (h3 : v.largestPossibleSpatialRegion = w.largestPossibleSpatialRegion)
    (h4 : v.requestedSpatialRegion = w.requestedSpatialRegion)
    (h5 : v.frame = w.frame) : v = w := by
  cases v; cases w
  simp only [VideoStream.mk.injEq]
  exact ⟨h1, h2, h3, h4, h5⟩

theorem ImageToVideoFilter.eq_of_filter_fields (F G : ImageToVideoFilter P)
    (h1 : F.input = G.input) (h2 : F.m_FrameAxis = G.m_FrameAxis) (h3 : F.output = G.output) :
    F = G := by
  cases F; cases G
  simp only [ImageToVideoFilter.mk.injEq]
  exact ⟨h1, h2, h3⟩

/-- The requested spatial regions after `GenerateOutputRequestedRegion` are left
as they are by a second run. -/
theorem GenerateOutputRequestedRegion_requested_twice (N : Nat) (F : ImageToVideoFilter P)
    (k : Nat) :
    (GenerateOutputRequestedRegion N
      (GenerateOutputRequestedRegion N F).filter).filter.output.requestedSpatialRegion k =
      (GenerateOutputRequestedRegion N F).filter.output.requestedSpatialRegion k := by
  have hfix := GenerateOutputRequestedRegion_fixed N F
  rw [GenerateOutputRequestedRegion_requested N (GenerateOutputRequestedRegion N F).filter k,
    hfix.2.2.1, hfix.2.2.2.2.1, GenerateOutputRequestedRegion_requested N F k]
  by_cases hc : (F.output.largestPossibleTemporalRegion.frameStart ≤ k ∧
      k < (F.output.largestPossibleTemporalRegion.frameStart +
        F.output.largestPossibleTemporalRegion.frameDuration) % SizeValueModulus) ∧
      validRegion (N - 1) (F.output.requestedSpatialRegion k) = false
  · rw [if_pos hc]
    split <;> rfl
  · rw [if_neg hc, if_neg hc]

/-! ## Claims on the slices, the axis loop and the resolution -/

/-- C15 (as amended). For every input region `R` of dimension `N`, frame axis
`a < N` and frame index `i`, the slice region that `GenerateData` hands to the
projection step has, on axis `a`, size `0` and the index `i` read as an index
value (`i` itself when `i < 2^63`), and on every other axis the index and size
of `R`. -/
theorem inputSliceRegion_axes (N a : Nat) (R : ImageRegion) (i : Nat)
    (hN : N < 2 ^ 32) (ha : a < N) (hR : R.WF N) :
    ∃ S, inputSliceRegion R (a : Int) i = .ok S ∧
      S.size[a]? = some 0 ∧
      S.index[a]? = some (toIndexValue i) ∧
      (i < 2 ^ 63 → S.index[a]? = some (i : Int)) ∧
      (∀ j, j ≠ a → S.index[j]? = R.index[j]? ∧ S.size[j]? = R.size[j]?) ∧
      S.index.length = N ∧ S.size.length = N ∧
      ∀ (extract : Image P → ImageRegion → Except Failure (Image P)) (input : Image P),
        extractFrame extract input R (a : Int) i = extract input S := by
  obtain ⟨hi, hs, _, _⟩ := hR
  have ha64 : a < 2 ^ 64 := by omega
  have hai : a < R.index.length := by omega
  have has : a < R.size.length := by omega
  have hS := inputSliceRegion_eq R a i ha64 hai has
  refine ⟨_, hS, ?_, ?_, ?_, ?_, ?_, ?_, ?_⟩
  · simp [List.getElem?_set, has]
  · simp [List.getElem?_set, hai]
  · intro hlt
    rw [← toIndexValue_of_lt i hlt]
    simp [List.getElem?_set, hai]
  · intro j hj
    exact ⟨List.getElem?_set_ne (Ne.symm hj), List.getElem?_set_ne (Ne.symm hj)⟩
  · simp [hi]
  · simp [hs]
  · intro extract input
    rw [extractFrame, hS]
    rfl

/-- C15, witness: the frame `2` of a `4 x 5 x 6` input with frame axis `0`. -/
theorem inputSliceRegion_axes_witness :
    (3 < 2 ^ 32 ∧ 0 < 3 ∧ (region [0, 0, 0] [4, 5, 6]).WF 3) ∧
    ∃ S, inputSliceRegion (region [0, 0, 0] [4, 5, 6]) ((0 : Nat) : Int) 2 = .ok S ∧
      S.size[0]? = some 0 ∧ S.index[0]? = some 2 := by
  refine ⟨by decide, ?_⟩
  obtain ⟨S, hS, h1, _, h3, _⟩ := inputSliceRegion_axes (P := List Int) 3 0
    (region [0, 0, 0] [4, 5, 6]) 2 (by decide) (by decide) (by decide)
  exact ⟨S, hS, h1, h3 (by decide)⟩

/-- C15, counterexample: the input region of index `(-5, 0, 0)` and size
`(3, 5, 6)` with frame axis `0` gives the requested temporal region
`(2^64 - 5, 3)`; for its frame index `i = 2^64 - 5`, which `GenerateData`
visits, the slice region has the index `-5` on axis `0`, not `i`. -/
theorem inputSliceRegion_axes_counterexample :
    ∃ F, GenerateOutputInformation 3
        ⟨some (positionImage (region [-5, 0, 0] [3, 5, 6])), 0, emptyStream 2⟩ = .ok F ∧
      F.output.requestedTemporalRegion = ⟨18446744073709551611, 3⟩ ∧
      visitedFrames (ExtractImageFilter 0) F =
        [18446744073709551611, 18446744073709551612, 18446744073709551613] ∧
      inputSliceRegion (region [-5, 0, 0] [3, 5, 6]) 0 18446744073709551611 =
        .ok (region [-5, 0, 0] [0, 5, 6]) ∧
      (region [-5, 0, 0] [0, 5, 6]).index[0]? ≠ some ((18446744073709551611 : Nat) : Int) :=
  ⟨_, rfl, by decide, by decide, rfl, by decide⟩

/-- The pass `GenerateData` over the modelled projection step, on a filter with
the input `input` and the frame axis `a`: the frames grafted are the frames of
the loop up to the first one outside the extent of the input, each of them
holds the image `sliceImage input a k` afterwards, and the largest possible
spatial regions of the stream are left as they were. -/
theorem GenerateData_model_frames (N a : Nat) (input : Image P) (G : ImageToVideoFilter P)
    (hN : N < 2 ^ 32) (ha : a < N) (hR : input.largestPossibleRegion.WF N)
    (hG : G.input = some input) (hax : G.m_FrameAxis = (a : Int)) :
    (GenerateData (ExtractImageFilter a) G).written =
      (List.range' G.output.requestedTemporalRegion.frameStart
        ((G.output.requestedTemporalRegion.frameStart +
            G.output.requestedTemporalRegion.frameDuration) % SizeValueModulus -
          G.output.requestedTemporalRegion.frameStart)).takeWhile
        (fun k => decide (inExtent input.largestPossibleRegion a k)) ∧
    (∀ k, k ∈ (GenerateData (ExtractImageFilter a) G).written →
      (GenerateData (ExtractImageFilter a) G).filter.output.frame k =
        some (sliceImage input a k)) ∧
    (GenerateData (ExtractImageFilter a) G).filter.output.largestPossibleSpatialRegion =
      G.output.largestPossibleSpatialRegion := by
  obtain ⟨hi, hs, _, _⟩ := hR
  have ha64 : a < 2 ^ 64 := by omega
  have hai : a < input.largestPossibleRegion.index.length := by omega
  have has : a < input.largestPossibleRegion.size.length := by omega
  have hok : frameOk (ExtractImageFilter a) input input.largestPossibleRegion (a : Int) =
      fun k => decide (inExtent input.largestPossibleRegion a k) := by
    funext k
    exact frameOk_model input a k ha64 hai has
  have hrun := GenerateData_eq_run (ExtractImageFilter a) G input hG
  rw [hax] at hrun
  have hw : (GenerateData (ExtractImageFilter a) G).written =
      (List.range' G.output.requestedTemporalRegion.frameStart
        ((G.output.requestedTemporalRegion.frameStart +
            G.output.requestedTemporalRegion.frameDuration) % SizeValueModulus -
          G.output.requestedTemporalRegion.frameStart)).takeWhile
        (fun k => decide (inExtent input.largestPossibleRegion a k)) := by
    rw [hrun, dataRun_written, hok]
    rfl
  refine ⟨hw, ?_, ?_⟩
  · intro k hk
    have hk' := hk
    rw [hw] at hk'
    have hk2 : k ∈ (List.range' G.output.requestedTemporalRegion.frameStart
        ((G.output.requestedTemporalRegion.frameStart +
            G.output.requestedTemporalRegion.frameDuration) % SizeValueModulus -
          G.output.requestedTemporalRegion.frameStart)).takeWhile
        (frameOk (ExtractImageFilter a) input input.largestPossibleRegion (a : Int)) := by
      rw [hok]; exact hk'
    have hp := List.mem_takeWhile_imp hk2
    rw [frameOk_model input a k ha64 hai has] at hp
    have hin : inExtent input.largestPossibleRegion a k := of_decide_eq_true hp
    rw [hrun, dataRun_frame, hok, if_pos hk', extractFrame_model input a k ha64 hai has,
      if_pos hin]
  · rw [hrun]
    exact (dataRun_fixed _ _ _ _ _ _).2.2.2.2.1

/-- C16. For every input region of dimension `N`, frame axis `a < N` and frame
indices `i` and `f`, the slice region that `GenerateData` builds for `i`, with
its axis `a` removed, is the largest-possible spatial region that
`GenerateOutputInformation` publishes for the frame `f`, and an image that the
modelled projection step returns for the slice is an image over that region.
In pipeline order, whatever temporal region `T` the consumer had requested in
between, `GenerateData` grafts the frames of the derived temporal region up to
the first one outside the extent of the input, and every frame `k` it grafts
holds afterwards an image over the slice region of `k` with its axis `a`
removed, which is the largest-possible spatial region of the frame `k`. -/
theorem inputSliceRegion_dropAxis (N a : Nat) (input : Image P) (out : VideoStream P)
    (hN : N < 2 ^ 32) (ha : a < N) (hR : input.largestPossibleRegion.WF N) :
    ∃ F, GenerateOutputInformation N ⟨some input, (a : Int), out⟩ = .ok F ∧
      (∀ i f : Nat, ∃ S, inputSliceRegion input.largestPossibleRegion (a : Int) i = .ok S ∧
        S.dropAxis a = F.output.largestPossibleSpatialRegion f ∧
        ∀ image, ExtractImageFilter a input S = .ok image →
          image.largestPossibleRegion = F.output.largestPossibleSpatialRegion f) ∧
      ∀ T : TemporalRegion,
        (GenerateData (ExtractImageFilter a) (GenerateOutputRequestedRegion N
            { F with output := F.output.SetRequestedTemporalRegion T }).filter).written =
          (List.range' (toSizeValue (input.largestPossibleRegion.index.getD a 0))
            ((toSizeValue (input.largestPossibleRegion.index.getD a 0) +
                input.largestPossibleRegion.size.getD a 0) % 2 ^ 64 -
              toSizeValue (input.largestPossibleRegion.index.getD a 0))).takeWhile
            (fun k => decide (inExtent input.largestPossibleRegion a k)) ∧
        ∀ k, k ∈ (GenerateData (ExtractImageFilter a) (GenerateOutputRequestedRegion N
            { F with output := F.output.SetRequestedTemporalRegion T }).filter).written →
          ∃ image S,
            (GenerateData (ExtractImageFilter a) (GenerateOutputRequestedRegion N
              { F with output :=
                F.output.SetRequestedTemporalRegion T }).filter).filter.output.frame k =
              some image ∧
            inputSliceRegion input.largestPossibleRegion (a : Int) k = .ok S ∧
            image.largestPossibleRegion = S.dropAxis a ∧
            image.largestPossibleRegion =
              (GenerateData (ExtractImageFilter a) (GenerateOutputRequestedRegion N
                { F with output :=
                    F.output.SetRequestedTemporalRegion T
                  }).filter).filter.output.largestPossibleSpatialRegion k ∧
            image.largestPossibleRegion = F.output.largestPossibleSpatialRegion k := by
  obtain ⟨hi, hs, hvi, hvs⟩ := hR
  have ha64 : a < 2 ^ 64 := by omega
  have hai : a < input.largestPossibleRegion.index.length := by omega
  have has : a < input.largestPossibleRegion.size.length := by omega
  have hdrop : ∀ i : Nat, (⟨input.largestPossibleRegion.index.set a (toIndexValue i),
      input.largestPossibleRegion.size.set a 0⟩ : ImageRegion).dropAxis a =
      input.largestPossibleRegion.dropAxis a := by
    intro i
    simp only [ImageRegion.dropAxis, eraseIdx_set_same]
  refine ⟨_, GenerateOutputInformation_eq N a input out hN ha hi hs, fun i f => ?_, fun T => ?_⟩
  · refine ⟨_, inputSliceRegion_eq _ a i ha64 hai has, hdrop i, ?_⟩
    intro image himg
    unfold ExtractImageFilter at himg
    split at himg
    · rw [← Except.ok.inj himg]
      exact hdrop i
    · exact Except.noConfusion himg
  · have hfix := GenerateOutputRequestedRegion_fixed N
      ({ (⟨some input, (a : Int), derivedOutput input.largestPossibleRegion a out⟩ :
          ImageToVideoFilter P) with
        output := (derivedOutput input.largestPossibleRegion a
          out).SetRequestedTemporalRegion T })
    obtain ⟨hw, hfr, hls⟩ := GenerateData_model_frames N a input
      (GenerateOutputRequestedRegion N
        ({ (⟨some input, (a : Int), derivedOutput input.largestPossibleRegion a out⟩ :
            ImageToVideoFilter P) with
          output := (derivedOutput input.largestPossibleRegion a
            out).SetRequestedTemporalRegion T })).filter
      hN ha ⟨hi, hs, hvi, hvs⟩ hfix.1 hfix.2.1
    rw [hfix.2.2.2.1] at hw
    refine ⟨hw, fun k hk => ?_⟩
    refine ⟨sliceImage input a k, _, hfr k hk, inputSliceRegion_eq _ a k ha64 hai has,
      (hdrop k).symm, ?_, rfl⟩
    rw [hls, hfix.2.2.2.2.1]
    rfl

/-- C16, witness: on a `4 x 5 x 6` input with frame axis `2`, the consumer
having requested the temporal region `(1, 2)` in between, `GenerateData`
grafts the frames `0, ..., 5`, and the frame `3` holds an image over the
`4 x 5` region of the frames, the slice of the frame `3` without its axis `2`. -/
theorem inputSliceRegion_dropAxis_witness :
    ∃ F, GenerateOutputInformation 3
        ⟨some (positionImage (region [0, 0, 0] [4, 5, 6])), ((2 : Nat) : Int),
          emptyStream 2⟩ = .ok F ∧
      (∃ S, inputSliceRegion (region [0, 0, 0] [4, 5, 6]) ((2 : Nat) : Int) 3 = .ok S ∧
        S.dropAxis 2 = F.output.largestPossibleSpatialRegion 3) ∧
      (GenerateData (ExtractImageFilter 2) (GenerateOutputRequestedRegion 3
          { F with output := F.output.SetRequestedTemporalRegion ⟨1, 2⟩ }).filter).written =
        [0, 1, 2, 3, 4, 5] ∧
      ∃ image,
        (GenerateData (ExtractImageFilter 2) (GenerateOutputRequestedRegion 3
          { F with output :=
            F.output.SetRequestedTemporalRegion ⟨1, 2⟩ }).filter).filter.output.frame 3 =
          some image ∧
        image.largestPossibleRegion = F.output.largestPossibleSpatialRegion 3 := by
  obtain ⟨F, hF, h, hT⟩ := inputSliceRegion_dropAxis 3 2
    (positionImage (region [0, 0, 0] [4, 5, 6])) (emptyStream 2)
    (by decide) (by decide) (by decide)
  obtain ⟨S, hS, hd, _⟩ := h 3 3
  obtain ⟨hw, hfr⟩ := hT ⟨1, 2⟩
  have hw' : (GenerateData (ExtractImageFilter 2) (GenerateOutputRequestedRegion 3
      { F with output := F.output.SetRequestedTemporalRegion ⟨1, 2⟩ }).filter).written =
      [0, 1, 2, 3, 4, 5] := by
    rw [hw]
    decide
  obtain ⟨image, _, h1, _, _, _, h5⟩ := hfr 3 (by rw [hw']; decide)
  exact ⟨F, hF, ⟨S, hS, hd⟩, hw', image, h1, h5⟩

/-- C18. For every input region of dimension `N` and frame axis `a < N`, the
axis loop of `GenerateOutputInformation` ends without a failure with the
counter `outputIdx` at `N - 1`, having written the frame axes
`0, ..., N - 2` in this order, each exactly once, and no frame axis from
`N - 1` on; the region it has filled has dimension `N - 1`. -/
theorem axisLoop_writes (N a : Nat) (R : ImageRegion) (ha : a < N) (hR : R.WF N) :
    ∃ st, axisLoop N R (a : Int) = .ok st ∧
      st.outputIdx = N - 1 ∧
      st.written = List.range (N - 1) ∧
      (∀ j, j < N - 1 → st.written.count j = 1) ∧
      (∀ j, j ∈ st.written → j < N - 1) ∧
      st.outputSpatialRegion.index.length = N - 1 ∧
      st.outputSpatialRegion.size.length = N - 1 := by
  obtain ⟨hi, hs, _, _⟩ := hR
  refine ⟨_, axisLoop_eq R N a hi hs ha, rfl, rfl, ?_, ?_, ?_, ?_⟩
  · intro j hj
    exact List.count_eq_one_of_mem (List.nodup_range (N - 1)) (List.mem_range.mpr hj)
  · intro j hj
    exact List.mem_range.mp hj
  · show (R.index.eraseIdx a).length = N - 1
    rw [List.length_eraseIdx]; simp [hi, ha]
  · show (R.size.eraseIdx a).length = N - 1
    rw [List.length_eraseIdx]; simp [hs, ha]

/-- C18, witness: a `4 x 5 x 6` input with frame axis `1` writes the frame axes
`0, 1` and ends with the counter at `2`. -/
theorem axisLoop_writes_witness :
    ∃ st, axisLoop 3 (region [0, 0, 0] [4, 5, 6]) ((1 : Nat) : Int) = .ok st ∧
      st.outputIdx = 2 ∧ st.written = [0, 1] := by
  obtain ⟨st, h, h1, h2, _⟩ := axisLoop_writes 3 1 (region [0, 0, 0] [4, 5, 6])
    (by decide) (by decide)
  exact ⟨st, h, h1, h2⟩

/-- C19. For every filter and output stream state, `GenerateOutputRequestedRegion`
run on its own result returns this result again: the same filter and stream
state, having gone through the same frames. -/
theorem GenerateOutputRequestedRegion_idempotent (N : Nat) (F : ImageToVideoFilter P) :
    (GenerateOutputRequestedRegion N (GenerateOutputRequestedRegion N F).filter).filter =
      (GenerateOutputRequestedRegion N F).filter ∧
    (GenerateOutputRequestedRegion N (GenerateOutputRequestedRegion N F).filter).inspected =
      (GenerateOutputRequestedRegion N F).inspected := by
  have hF := GenerateOutputRequestedRegion_fixed N F
  have hG := GenerateOutputRequestedRegion_fixed N (GenerateOutputRequestedRegion N F).filter
  constructor
  · apply ImageToVideoFilter.eq_of_filter_fields
    · exact hG.1
    · exact hG.2.1
    · apply VideoStream.eq_of_stream_fields
      · exact hG.2.2.1
      · rw [hG.2.2.2.1, hF.2.2.1, hF.2.2.2.1]
      · exact hG.2.2.2.2.1
      · funext k
        exact GenerateOutputRequestedRegion_requested_twice N F k
      · exact hG.2.2.2.2.2
  · rw [GenerateOutputRequestedRegion_inspected, GenerateOutputRequestedRegion_inspected,
      hF.2.2.1]

/-! ## The frames visited by `GenerateData` -/

theorem dataLoopVisited_eq_run (extract : Image P → ImageRegion → Except Failure (Image P))
    (input : Image P) (R : ImageRegion) (axis : Int) (bound : Nat)
    (hb : bound < SizeValueModulus) :
    ∀ (fuel idx : Nat), bound - idx ≤ fuel →
      dataLoopVisited extract input R axis bound fuel idx =
        visitedRun extract input R axis (List.range' idx (bound - idx))
  | 0, idx, h => by
    have : bound - idx = 0 := by omega
    simp [dataLoopVisited, this, visitedRun]
  | fuel + 1, idx, h => by
    by_cases hi : idx < bound
    · have hmod : (idx + 1) % SizeValueModulus = idx + 1 := Nat.mod_eq_of_lt (by omega)
      have hsub : bound - idx = (bound - (idx + 1)) + 1 := by omega
      rw [dataLoopVisited, if_pos hi, hmod, hsub, List.range'_succ, visitedRun]
      cases hx : extractFrame extract input R axis idx with
      | error e => rfl
      | ok image =>
        simp only []
        rw [dataLoopVisited_eq_run extract input R axis bound hb fuel (idx + 1) (by omega)]
    · have : bound - idx = 0 := by omega
      rw [dataLoopVisited, if_neg hi, this]
      simp [visitedRun]

theorem visitedFrames_eq_run (extract : Image P → ImageRegion → Except Failure (Image P))
    (F : ImageToVideoFilter P) (input : Image P) (hF : F.input = some input) :
    visitedFrames extract F =
      visitedRun extract input input.largestPossibleRegion F.m_FrameAxis
        (List.range' F.output.requestedTemporalRegion.frameStart
          ((F.output.requestedTemporalRegion.frameStart +
              F.output.requestedTemporalRegion.frameDuration) % SizeValueModulus -
            F.output.requestedTemporalRegion.frameStart)) := by
  unfold visitedFrames GetInput
  rw [hF]
  simp only [VideoStream.GetRequestedTemporalRegion]
  apply dataLoopVisited_eq_run
  · exact Nat.mod_lt _ (by unfold SizeValueModulus; norm_num)
  · have := Nat.mod_lt (F.output.requestedTemporalRegion.frameStart +
      F.output.requestedTemporalRegion.frameDuration)
      (show 0 < SizeValueModulus by unfold SizeValueModulus; norm_num)
    omega

theorem visitedRun_mem (extract : Image P → ImageRegion → Except Failure (Image P))
    (input : Image P) (R : ImageRegion) (axis : Int) (k : Nat) :
    ∀ (l : List Nat), k ∈ visitedRun extract input R axis l → k ∈ l
  | [], h => by simp [visitedRun] at h
  | idx :: rest, h => by
    rw [visitedRun] at h
    cases hx : extractFrame extract input R axis idx with
    | error e =>
      rw [hx] at h
      simp only [List.mem_singleton] at h
      simp [h]
    | ok image =>
      rw [hx] at h
      simp only [List.mem_cons] at h
      rcases h with h | h
      · simp [h]
      · exact List.mem_cons_of_mem _ (visitedRun_mem extract input R axis k rest h)

theorem visitedRun_all_ok (extract : Image P → ImageRegion → Except Failure (Image P))
    (input : Image P) (R : ImageRegion) (axis : Int) :
    ∀ (l : List Nat), (∀ k ∈ l, frameOk extract input R axis k = true) →
      visitedRun extract input R axis l = l
  | [], _ => rfl
  | idx :: rest, h => by
    rw [visitedRun]
    obtain ⟨image, hx⟩ := (frameOk_iff extract input R axis idx).mp (h idx (by simp))
    rw [hx]
    simp only []
    rw [visitedRun_all_ok extract input R axis rest (fun k hk => h k (by simp [hk]))]

/-- Over the frames `s, ..., s + d - 1` the loop visits an initial segment. -/
theorem visitedRun_range (extract : Image P → ImageRegion → Except Failure (Image P))
    (input : Image P) (R : ImageRegion) (axis : Int) :
    ∀ (d s : Nat), ∃ n, n ≤ d ∧
      visitedRun extract input R axis (List.range' s d) = List.range' s n
  | 0, s => ⟨0, le_refl 0, rfl⟩
  | d + 1, s => by
    rw [List.range'_succ, visitedRun]
    cases hx : extractFrame extract input R axis s with
    | error e => exact ⟨1, by omega, rfl⟩
    | ok image =>
      obtain ⟨n, hn, h⟩ := visitedRun_range extract input R axis d (s + 1)
      refine ⟨n + 1, by omega, ?_⟩
      simp only []
      rw [h, List.range'_succ]

/-- Over the frames `s, ..., s + d - 1` the loop visits the frames up to and
including the first one `f` at which its body fails. -/
theorem visitedRun_range_failure (extract : Image P → ImageRegion → Except Failure (Image P))
    (input : Image P) (R : ImageRegion) (axis : Int) (f : Nat)
    (hf : frameOk extract input R axis f = false) :
    ∀ (d s : Nat), s ≤ f → f < s + d →
      (∀ k, s ≤ k → k < f → frameOk extract input R axis k = true) →
      visitedRun extract input R axis (List.range' s d) = List.range' s (f - s + 1)
  | 0, s, h1, h2, _ => by omega
  | d + 1, s, h1, h2, hok => by
    rw [List.range'_succ, visitedRun]
    by_cases hsf : s = f
    · subst hsf
      cases hx : extractFrame extract input R axis s with
      | error e => simp
      | ok image =>
        have : frameOk extract input R axis s = true := by simp [frameOk, hx]
        rw [this] at hf
        exact Bool.noConfusion hf
    · obtain ⟨image, hx⟩ := (frameOk_iff extract input R axis s).mp (hok s (le_refl s) (by omega))
      rw [hx]
      simp only []
      rw [visitedRun_range_failure extract input R axis f hf d (s + 1) (by omega) (by omega)
        (fun k hk1 hk2 => hok k (by omega) hk2)]
      have : f - s + 1 = (f - (s + 1) + 1) + 1 := by omega
      rw [this, List.range'_succ s]

theorem longExample_frameOk (k : Nat) :
    frameOk (ExtractImageFilter 0) (positionImage (region [0, 0] [9223372036854775810, 1]))
      (region [0, 0] [9223372036854775810, 1]) 0 k =
      decide (inExtent (region [0, 0] [9223372036854775810, 1]) 0 k) :=
  frameOk_model (positionImage (region [0, 0] [9223372036854775810, 1])) 0 k
    (by norm_num) (by decide) (by decide)

theorem longExample_inExtent (k : Nat) (hk : k < 2 ^ 64) :
    inExtent (region [0, 0] [9223372036854775810, 1]) 0 k ↔ k < 2 ^ 63 := by
  unfold inExtent toIndexValue SizeValueModulus
  simp only [region, List.getD_cons_zero]
  split <;> constructor <;> intro h <;> omega

/-- The frames that `GenerateData` visits on `longExample` in pipeline order:
`0, ..., 2^63`, the last of which the projection step rejects. -/
theorem longExample_visited (F : ImageToVideoFilter (List Int))
    (h1 : F.input = some (positionImage (region [0, 0] [9223372036854775810, 1])))
    (h2 : F.m_FrameAxis = 0)
    (h3 : F.output.requestedTemporalRegion = ⟨0, 9223372036854775810⟩) :
    visitedFrames (ExtractImageFilter 0) F = List.range' 0 9223372036854775809 := by
  rw [visitedFrames_eq_run _ F _ h1, h2, h3]
  have hb : (0 + 9223372036854775810) % SizeValueModulus - 0 = 9223372036854775810 := by
    unfold SizeValueModulus; norm_num
  simp only [hb]
  have hfail : frameOk (ExtractImageFilter 0)
      (positionImage (region [0, 0] [9223372036854775810, 1]))
      (region [0, 0] [9223372036854775810, 1]) 0 9223372036854775808 = false := by
    rw [longExample_frameOk]
    exact decide_eq_false (fun h => by
      have := (longExample_inExtent 9223372036854775808 (by norm_num)).mp h
      omega)
  have := visitedRun_range_failure (ExtractImageFilter 0)
    (positionImage (region [0, 0] [9223372036854775810, 1]))
    (region [0, 0] [9223372036854775810, 1]) 0 9223372036854775808 hfail
    9223372036854775810 0 (by omega) (by omega)
    (fun k _ hk => by
      rw [longExample_frameOk]
      exact decide_eq_true ((longExample_inExtent k (by omega)).mpr (by omega)))
  exact this

/-! ## Claims on the frame loops -/

/-- C20 (as amended). For a connected filter whose largest possible and
requested temporal regions are both `(s, d)`, with `s` and `d` below `2^64`:
the loop of `GenerateOutputRequestedRegion` visits exactly the frames `i` with
`s ≤ i < (s + d) mod 2^64`, in increasing order; the loop of `GenerateData`
visits an initial segment of them: all of them when its body fails at none,
and otherwise the frames `s, ..., f` up to and including the first frame `f`
at which its body fails. When `s + d ≥ 2^64` neither loop visits a frame; when
`s + d < 2^64` the first loop visits `d` frames and the second at most `d`, and
`d` when its body fails at none. -/
theorem frame_loops_wrap (extract : Image P → ImageRegion → Except Failure (Image P))
    (N : Nat) (F : ImageToVideoFilter P) (input : Image P) (s d : Nat)
    (hF : F.input = some input)
    (hL : F.output.largestPossibleTemporalRegion = ⟨s, d⟩)
    (hQ : F.output.requestedTemporalRegion = ⟨s, d⟩)
    (hs : s < 2 ^ 64) (hd : d < 2 ^ 64) :
    (GenerateOutputRequestedRegion N F).inspected = List.range' s ((s + d) % 2 ^ 64 - s) ∧
    (∀ i, i ∈ (GenerateOutputRequestedRegion N F).inspected ↔ (s ≤ i ∧ i < (s + d) % 2 ^ 64)) ∧
    (∃ n, n ≤ (s + d) % 2 ^ 64 - s ∧ visitedFrames extract F = List.range' s n) ∧
    (∀ i, i ∈ visitedFrames extract F → (s ≤ i ∧ i < (s + d) % 2 ^ 64)) ∧
    ((∀ i, s ≤ i → i < (s + d) % 2 ^ 64 →
        frameOk extract input input.largestPossibleRegion F.m_FrameAxis i = true) →
      visitedFrames extract F = List.range' s ((s + d) % 2 ^ 64 - s)) ∧
    (∀ f, s ≤ f → f < (s + d) % 2 ^ 64 →
      frameOk extract input input.largestPossibleRegion F.m_FrameAxis f = false →
      (∀ k, s ≤ k → k < f →
        frameOk extract input input.largestPossibleRegion F.m_FrameAxis k = true) →
      visitedFrames extract F = List.range' s (f - s + 1) ∧
      (GenerateData extract F).written = List.range' s (f - s) ∧
      (GenerateData extract F).failure ≠ none) ∧
    (2 ^ 64 ≤ s + d →
      (GenerateOutputRequestedRegion N F).inspected = [] ∧ visitedFrames extract F = []) ∧
    (s + d < 2 ^ 64 →
      (GenerateOutputRequestedRegion N F).inspected.length = d ∧
      (visitedFrames extract F).length ≤ d ∧
      ((∀ i, s ≤ i → i < s + d →
          frameOk extract input input.largestPossibleRegion F.m_FrameAxis i = true) →
        (visitedFrames extract F).length = d)) := by
  have hM : SizeValueModulus = 2 ^ 64 := rfl
  have hI : (GenerateOutputRequestedRegion N F).inspected =
      List.range' s ((s + d) % 2 ^ 64 - s) := by
    rw [GenerateOutputRequestedRegion_inspected, hL, hM]
  have hV : visitedFrames extract F =
      visitedRun extract input input.largestPossibleRegion F.m_FrameAxis
        (List.range' s ((s + d) % 2 ^ 64 - s)) := by
    rw [visitedFrames_eq_run extract F input hF, hQ, hM]
  have hrange : ∀ i, i ∈ List.range' s ((s + d) % 2 ^ 64 - s) ↔
      (s ≤ i ∧ i < (s + d) % 2 ^ 64) := by
    intro i
    rw [List.mem_range'_1]
    constructor <;> rintro ⟨h1, h2⟩ <;> exact ⟨h1, by omega⟩
  have hall : (∀ i, s ≤ i → i < (s + d) % 2 ^ 64 →
        frameOk extract input input.largestPossibleRegion F.m_FrameAxis i = true) →
      visitedFrames extract F = List.range' s ((s + d) % 2 ^ 64 - s) := by
    intro h
    rw [hV]
    exact visitedRun_all_ok _ _ _ _ _ (fun k hk => h k ((hrange k).mp hk).1 ((hrange k).mp hk).2)
  obtain ⟨n, hn, hvn⟩ := visitedRun_range extract input input.largestPossibleRegion
    F.m_FrameAxis ((s + d) % 2 ^ 64 - s) s
  refine ⟨hI, ?_, ⟨n, hn, by rw [hV, hvn]⟩, ?_, hall, ?_, ?_, ?_⟩
  · intro i
    rw [hI]
    exact hrange i
  · intro i hi
    rw [hV] at hi
    exact (hrange i).mp (visitedRun_mem _ _ _ _ _ _ hi)
  · intro f hf1 hf2 hfail hok
    have hD : GenerateData extract F =
        dataRun extract input input.largestPossibleRegion F.m_FrameAxis
          (List.range' s ((s + d) % 2 ^ 64 - s)) ⟨F, [], none⟩ := by
      rw [GenerateData_eq_run extract F input hF, hQ, hM]
    obtain ⟨f', e, h1, h2, h3, h4, h5, h6⟩ :=
      dataRun_range_failure extract input input.largestPossibleRegion F.m_FrameAxis
        ((s + d) % 2 ^ 64 - s) s ⟨F, [], none⟩ ⟨f, hf1, by omega, hfail⟩
    have hff : f' = f := by
      have hbad' : frameOk extract input input.largestPossibleRegion F.m_FrameAxis f' =
          false := by simp [frameOk, h3]
      by_contra hne
      rcases Nat.lt_or_gt_of_ne hne with hlt | hgt
      · rw [hok f' h1 hlt] at hbad'
        exact Bool.noConfusion hbad'
      · rw [h4 f hf1 hgt] at hfail
        exact Bool.noConfusion hfail
    subst hff
    refine ⟨?_, ?_, ?_⟩
    · rw [hV]
      exact visitedRun_range_failure extract input input.largestPossibleRegion
        F.m_FrameAxis f' hfail ((s + d) % 2 ^ 64 - s) s hf1 (by omega) hok
    · rw [hD, dataRun_written, h5]
      rfl
    · rw [hD, h6]
      exact Option.noConfusion
  · intro hov
    have hz : (s + d) % 2 ^ 64 - s = 0 := by omega
    constructor
    · rw [hI, hz]; rfl
    · rw [hV, hz]; rfl
  · intro hov
    have hz : (s + d) % 2 ^ 64 - s = d := by omega
    refine ⟨?_, ?_, ?_⟩
    · rw [hI, hz, List.length_range']
    · rw [hV, hvn, List.length_range']
      omega
    · intro h
      rw [hall (fun i h1 h2 => h i h1 (by omega)), hz, List.length_range']

/-- C20, witness: the stream derived from the input region of index `(-2, 0)`
and size `(4, 5)` with frame axis `0` has `s = 2^64 - 2` and `d = 4`; neither
loop visits a frame. -/
theorem frame_loops_wrap_witness :
    (18446744073709551614 < 2 ^ 64 ∧ 4 < 2 ^ 64 ∧ 2 ^ 64 ≤ 18446744073709551614 + 4) ∧
    (GenerateOutputRequestedRegion 2
      (⟨some (positionImage (region [-2, 0] [4, 5])), 0,
        derivedOutput (region [-2, 0] [4, 5]) 0 (emptyStream 1)⟩ :
        ImageToVideoFilter (List Int))).inspected = [] ∧
    visitedFrames (ExtractImageFilter 0)
      (⟨some (positionImage (region [-2, 0] [4, 5])), 0,
        derivedOutput (region [-2, 0] [4, 5]) 0 (emptyStream 1)⟩ :
        ImageToVideoFilter (List Int)) = [] := by
  refine ⟨by decide, ?_⟩
  exact (frame_loops_wrap (ExtractImageFilter 0) 2
    (⟨some (positionImage (region [-2, 0] [4, 5])), 0,
      derivedOutput (region [-2, 0] [4, 5]) 0 (emptyStream 1)⟩ : ImageToVideoFilter (List Int))
    (positionImage (region [-2, 0] [4, 5])) 18446744073709551614 4 rfl (by decide) (by decide)
    (by decide) (by decide)).2.2.2.2.2.2.1 (by decide)

/-- C20, counterexample. For the requested temporal region `(2, 5)` on a
`4 x 5 x 6` input with frame axis `0`, where `2 + 5 < 2^64`, the loop of
`GenerateData` visits the frames `2, 3, 4`, not the five frames `2, ..., 6`:
the projection step fails at the frame `4`. For the input region of index
`(0, 0)` and size `(2^63 + 2, 1)`, in pipeline order, the requested temporal
region is `(0, 2^63 + 2)` and the loop of `GenerateData` visits the `2^63 + 1`
frames `0, ..., 2^63`. -/
theorem frame_loops_wrap_counterexample :
    (outOfRangeExample.output.requestedTemporalRegion = ⟨2, 5⟩ ∧
      2 + 5 < 2 ^ 64 ∧
      visitedFrames (ExtractImageFilter 0) outOfRangeExample = [2, 3, 4] ∧
      (2 ≤ 5 ∧ 5 < (2 + 5) % 2 ^ 64) ∧
      5 ∉ visitedFrames (ExtractImageFilter 0) outOfRangeExample ∧
      (visitedFrames (ExtractImageFilter 0) outOfRangeExample).length ≠ 5) ∧
    (∃ F, GenerateOutputInformation 2 longExample = .ok F ∧
      F.output.requestedTemporalRegion = ⟨0, 9223372036854775810⟩ ∧
      0 + 9223372036854775810 < 2 ^ 64 ∧
      visitedFrames (ExtractImageFilter 0) F = List.range' 0 9223372036854775809 ∧
      (visitedFrames (ExtractImageFilter 0) F).length ≠ 9223372036854775810) := by
  refine ⟨by decide, ⟨some (positionImage (region [0, 0] [9223372036854775810, 1])), 0,
    derivedOutput (region [0, 0] [9223372036854775810, 1]) 0 (emptyStream 1)⟩, rfl, rfl,
    by norm_num, ?_, ?_⟩
  · exact longExample_visited _ rfl rfl rfl
  · rw [longExample_visited _ rfl rfl rfl, List.length_range']
    norm_num

/-! ## Agreement of the visited frames with `GenerateData` -/

theorem takeWhile_visitedRun (extract : Image P → ImageRegion → Except Failure (Image P))
    (input : Image P) (R : ImageRegion) (axis : Int) :
    ∀ (l : List Nat),
      (visitedRun extract input R axis l).takeWhile (frameOk extract input R axis) =
        l.takeWhile (frameOk extract input R axis)
  | [] => rfl
  | idx :: rest => by
    rw [visitedRun]
    cases hx : extractFrame extract input R axis idx with
    | error e =>
      have hno : frameOk extract input R axis idx = false := by simp [frameOk, hx]
      simp [List.takeWhile_cons, hno]
    | ok image =>
      have hok : frameOk extract input R axis idx = true := by simp [frameOk, hx]
      simp only []
      rw [List.takeWhile_cons, List.takeWhile_cons, hok,
        takeWhile_visitedRun extract input R axis rest]

/-- The frames that `GenerateData` grafts are the frames it visits, up to the
first one at which the body of its loop fails. -/
theorem GenerateData_written_eq_visited
    (extract : Image P → ImageRegion → Except Failure (Image P))
    (F : ImageToVideoFilter P) (input : Image P) (hF : F.input = some input) :
    (GenerateData extract F).written =
      (visitedFrames extract F).takeWhile
        (frameOk extract input input.largestPossibleRegion F.m_FrameAxis) := by
  rw [GenerateData_eq_run extract F input hF, dataRun_written,
    visitedFrames_eq_run extract F input hF, takeWhile_visitedRun]
  rfl

end itk
